import Mathlib

/-!
Shallow embedding of the worker supervision / window coordination core of
`ensure_link.py` (auto_wake).

Modelling conventions, used uniformly below:

* `time.time()` is modelled by one integer-valued tick input `now`; time is
  measured in tenths of a second (every literal time constant of the source is
  an exact multiple of 0.1 s), so the source constants `0.3`, `0.5`, `0.8`,
  `1.0`, `1.2`, `2.0` seconds appear below as `3`, `5`, `8`, `10`, `12`, `20`,
  and 60 seconds appear as `600`.
* OS observations made during a tick (process scans, visible-window
  enumeration, `poll()` answers, launcher outcomes) are tick inputs carried by
  an environment structure; each is observed once per tick.
* A pid is a positive natural number.  Python truthiness of an optional pid
  (`if self.external_pid:`) is modelled by `Option ℕ` being `some _` /
  `none`; the falsy pid `0` never occurs because pids are positive.
* A `subprocess.Popen` handle is modelled by the pid it carries
  (`proc : Option ℕ`); whether `poll()` returns `None` (process alive) is the
  environment flag `procAlive`, which is only meaningful while a handle
  exists.
* Side effects (terminating a process, invoking the launcher, locking /
  lowering / hiding / showing the notice window, minimizing and restoring
  windows, writes to the coordination-state file) are recorded as an event
  list returned next to the post-state.
* Strings coming from the configuration are assumed already lower-case, so
  `(mode or "normal").lower() == "minimized"` is modelled as
  `mode = "minimized"`.
-/

namespace AutoWake

/-! ## Coordination state store (`read_notice_state`, `write_notice_state`,
`update_notice_state_counter`)

The JSON record is modelled as a partial map from keys to integers: the file
only ever stores numeric fields, and in tenth-of-second units every number
this program writes is integral, so `int()` / `float()` conversions on stored
values are identities.  A missing file reads as the empty map. -/

abbrev StateMap := String → Option ℤ

/-- The empty coordination state: `read_notice_state` of a missing or
malformed file returns `{}`. -/
def emptyState : StateMap := fun _ => none

/-- `write_notice_state(work_dir, **updates)`: read the existing record,
overwrite exactly the named keys with `float(value)`, atomically replace the
file.  `updates` is the keyword-argument list (keyword names are distinct in
Python, so `find?` picks the value of the named key). -/
def writeNoticeState (st : StateMap) (updates : List (String × ℤ)) : StateMap :=
  fun k =>
    match updates.find? (fun p => p.fst == k) with
    | some p => some p.snd
    | none => st k

/-- `int(state.get(key, 0))` of `update_notice_state_counter`. -/
def counterRead (st : StateMap) (key : String) : ℤ :=
  match st key with
  | some v => v
  | none => 0

/-- `update_notice_state_counter(work_dir, key, delta)`: read-modify-write
that stores `max(0, current + delta)` under `key` and leaves every other key
of the record unchanged. -/
def updateNoticeStateCounter (st : StateMap) (key : String) (delta : ℤ) : StateMap :=
  fun k =>
    if k = key then some (max 0 (counterRead st key + delta))
    else st k

/-! ## Idle monitor / screensaver state machine (`SaverWorker._tick`) -/

/-- The configuration fields read by `SaverWorker._tick`. -/
structure SaverCfg where
  saverEnabled : Bool
  saverStartDelaySec : ℤ
  activeThresholdSec : ℤ
  idleToShowSec : ℤ
  deriving DecidableEq

/-- The mutable state of `SaverWorker`: `started_at`, the `saver_visible`
flag, and whether the overlay window is currently shown
(`self.window.isVisible()`). -/
structure SaverSt where
  startedAt : ℤ
  saverVisible : Bool
  windowVisible : Bool
  deriving DecidableEq

/-- A `write_notice_state` call made by the saver worker: the `saver_active`
value written and, when present, the fresh `saver_trigger_at` timestamp. -/
inductive SaverEv where
  | write (saverActive : ℤ) (triggerAt : Option ℤ)
  deriving DecidableEq

/-- `SaverWorker._tick`, with `now = time.time()` and
`idle = seconds_since_last_input()` as tick inputs.  Palette bookkeeping and
`self.window.refresh()` have no observable effect on this state and are
omitted. -/
def saverTick (cfg : SaverCfg) (now idle : ℤ) (s : SaverSt) : SaverSt × List SaverEv :=
  if cfg.saverEnabled = false then
    let (s1, evs) :=
      if s.saverVisible then
        ({ s with saverVisible := false }, [SaverEv.write 0 none])
      else (s, [])
    ({ s1 with windowVisible := false }, evs)
  else if now - s.startedAt < cfg.saverStartDelaySec then (s, [])
  else if idle ≤ cfg.activeThresholdSec then
    let (s1, evs) :=
      if s.saverVisible then
        ({ s with saverVisible := false }, [SaverEv.write 0 none])
      else (s, [])
    ({ s1 with windowVisible := false }, evs)
  else if cfg.idleToShowSec ≤ idle then
    if s.windowVisible = false then
      let (s1, evs1) :=
        if s.saverVisible = false then
          ({ s with saverVisible := true }, [SaverEv.write 1 (some now)])
        else (s, [])
      let s2 := { s1 with windowVisible := true }
      let (s3, evs2) :=
        if s2.saverVisible = false then
          ({ s2 with saverVisible := true }, [SaverEv.write 1 (some now)])
        else (s2, [])
      (s3, evs1 ++ evs2)
    else (s, [])
  else (s, [])

/-! ## Target worker (`TargetWorker._tick`)

The target worker runs the notice coordinator, the window watchdog and the
launch scheduler for the target surface in a single timer tick. -/

/-- The relaunch-relevant configuration signature of the target worker:
`(urls, window mode, start delay, relaunch cooldown, enabled, repeat mode)`. -/
abbrev TargetSig := List String × String × ℤ × ℤ × Bool × String

/-- The configuration fields read by `TargetWorker._tick` (palette and
content fields are rendering-only and omitted).  `urls` models
`self.cfg.urls or [self.cfg.url]`, which is always nonempty. -/
structure TargetCfg where
  urls : List String
  targetWindowMode : String
  targetStartDelaySec : ℤ
  targetRelaunchCooldownSec : ℤ
  targetEnabled : Bool
  targetRepeatMode : String
  noticeEnabled : Bool
  noticeRepeatEnabled : Bool
  noticeRepeatIntervalMin : ℤ
  saverEnabled : Bool
  deriving DecidableEq

/-- `config_signature` as computed at the top of `TargetWorker._tick`. -/
def targetConfigSignature (cfg : TargetCfg) : TargetSig :=
  (cfg.urls, cfg.targetWindowMode, cfg.targetStartDelaySec,
   cfg.targetRelaunchCooldownSec, cfg.targetEnabled, cfg.targetRepeatMode)

/-- Tick inputs of `TargetWorker._tick`: the configuration snapshot loaded by
`load_config()`, the clock, the OS observations, the launcher outcome and the
coordination-state fields read through `read_notice_state`. -/
structure TargetEnv where
  cfg : TargetCfg
  now : ℤ
  /-- `self.proc.poll() is None`, meaningful while a handle exists. -/
  procAlive : Bool
  /-- `find_chrome_processes_by_profile(<work_dir>/chrome_profiles/target)`. -/
  scanPids : List ℕ
  /-- pids owning at least one visible top-level window
  (`find_window_handles_by_pid(pid)` nonempty). -/
  winPids : List ℕ
  /-- `launch_chrome(...)` outcome: spawned pid, or `none` on spawn failure. -/
  launchResult : Option ℕ
  /-- `int(state.get("ui_active", 0))`. -/
  uiActiveCount : ℤ
  /-- `float(state.get("saver_active", 0.0))`. -/
  saverActiveVal : ℤ
  /-- `float(state.get("saver_trigger_at", 0.0))`. -/
  saverTriggerAt : ℤ
  /-- `float(state.get("notice_dismissed_at", 0.0))`. -/
  noticeDismissedAt : ℤ
  deriving DecidableEq

/-- `bool(find_window_handles_by_pid(pid))` for this tick. -/
def hasWin (env : TargetEnv) (pid : ℕ) : Bool := env.winPids.contains pid

/-- The mutable state of `TargetWorker`. -/
structure TargetSt where
  proc : Option ℕ
  externalPid : Option ℕ
  lastMinimizedPid : Option ℕ
  pendingMinimizePid : Option ℕ
  pendingMinimizeAt : Option ℤ
  lastLaunch : ℤ
  pendingLaunchAt : Option ℤ
  lastConfigSignature : Option TargetSig
  noticeDismissed : Bool
  lastNoticeEnabled : Bool
  lastSaverTriggerAt : ℤ
  pendingNoticeAfterSaver : Bool
  lastInteractionLock : Option Bool
  lastSaverActive : Bool
  saverReleaseHoldUntil : ℤ
  lastUiActive : Bool
  uiReleaseHoldUntil : ℤ
  onceLaunched : Bool
  missingWindowSince : Option ℤ
  /-- `self.notice.isVisible()`. -/
  noticeVisible : Bool
  /-- `self.notice._interaction_locked` (cleared by `hideEvent`, set by
  `show_centered` / `set_interaction_lock`). -/
  noticeLocked : Bool
  deriving DecidableEq

/-- Observable side effects of one target tick. -/
inductive TargetEv where
  /-- `self.proc.terminate()` / `terminate_process(pid)`. -/
  | terminate (pid : ℕ)
  /-- `NoticeWindow.set_interaction_lock(locked)`. -/
  | lockSet (locked : Bool)
  | lowerNotice
  | hideNotice
  | showNotice
  | raiseNotice
  /-- a `write_notice_state` call with the given updates. -/
  | stateWrite (updates : List (String × ℤ))
  /-- a `launch_chrome` invocation, recorded with the deciding `now` and
  the value of `self.last_launch` before the attempt. -/
  | launch (now lastLaunchBefore : ℤ)
  | minimize (pid : ℕ)
  deriving DecidableEq

/-- `TargetWorker._stop_proc`: terminate the owned process if it is alive,
drop the handle, forget the adopted pid and the minimize bookkeeping.  Unlike
the audio worker, the target worker does not terminate the adopted pid. -/
def targetStopProc (env : TargetEnv) (s : TargetSt) : TargetSt × List TargetEv :=
  let evs :=
    match s.proc with
    | some pid => if env.procAlive then [TargetEv.terminate pid] else []
    | none => []
  ({ s with proc := none, externalPid := none, lastMinimizedPid := none,
            pendingMinimizePid := none, pendingMinimizeAt := none }, evs)

/-- `TargetWorker._current_pid`: the owned pid while the owned process is
alive, otherwise the adopted external pid. -/
def targetCurrentPid (env : TargetEnv) (s : TargetSt) : Option ℕ :=
  match s.proc with
  | some pid => if env.procAlive then some pid else s.externalPid
  | none => s.externalPid

/-- The config-signature stage at the top of `TargetWorker._tick`: on a
signature change with a live owned process, stop it and force a fresh
relaunch cycle (`pendingLaunchAt = now + startDelay`, `lastLaunch = 0`,
`onceLaunched = false`). -/
def targetConfigStage (env : TargetEnv) (s : TargetSt) : TargetSt × List TargetEv :=
  let sig := targetConfigSignature env.cfg
  match s.lastConfigSignature with
  | none => ({ s with lastConfigSignature := some sig }, [])
  | some prev =>
    if sig = prev then (s, [])
    else
      let s1 := { s with lastConfigSignature := some sig }
      if s1.proc ≠ none ∧ env.procAlive = true then
        let r := targetStopProc env s1
        ({ r.1 with pendingLaunchAt := some (env.now + env.cfg.targetStartDelaySec),
                    lastLaunch := 0, onceLaunched := false }, r.2)
      else (s1, [])

/-- `int(state.get("ui_active", 0)) > 0` for this tick. -/
def uiActiveB (env : TargetEnv) : Bool := 0 < env.uiActiveCount

/-- `float(state.get("saver_active", 0.0)) > 0.5` for this tick: the program
only ever stores `0.0` or `1.0` here, and for an integral value
`v > 0.5 ↔ 0 < v`. -/
def saverActiveB (env : TargetEnv) : Bool := 0 < env.saverActiveVal

/-- `if self.cfg.notice_enabled and not self.last_notice_enabled:` reset the
local dismissed flag on a rising enable edge; then record
`last_notice_enabled`. -/
def hkEnableEdge (env : TargetEnv) (s : TargetSt) : TargetSt :=
  let s := if env.cfg.noticeEnabled = true ∧ s.lastNoticeEnabled = false then
      { s with noticeDismissed := false } else s
  { s with lastNoticeEnabled := env.cfg.noticeEnabled }

/-- Edge detection on `ui_active`: on a falling edge start the 0.5 s release
hold. -/
def hkUiEdge (env : TargetEnv) (s : TargetSt) : TargetSt :=
  if uiActiveB env ≠ s.lastUiActive then
    { s with lastUiActive := uiActiveB env,
             uiReleaseHoldUntil :=
               if uiActiveB env = false then env.now + 5 else s.uiReleaseHoldUntil }
  else s

/-- Edge detection on `saver_active`: on a falling edge start the 0.8 s
release hold. -/
def hkSaverEdge (env : TargetEnv) (s : TargetSt) : TargetSt :=
  if saverActiveB env ≠ s.lastSaverActive then
    { s with lastSaverActive := saverActiveB env,
             saverReleaseHoldUntil :=
               if saverActiveB env = false then env.now + 8 else s.saverReleaseHoldUntil }
  else s

/-- An advanced `saver_trigger_at` re-arms the notice (`pending_notice_after_saver`)
and clears the local dismissed flag. -/
def hkTrigger (env : TargetEnv) (s : TargetSt) : TargetSt :=
  if s.lastSaverTriggerAt < env.saverTriggerAt then
    { s with lastSaverTriggerAt := env.saverTriggerAt,
             pendingNoticeAfterSaver := true, noticeDismissed := false }
  else s

/-- Repeat re-exposure: with the saver inactive and disabled, repeat enabled
and a recorded dismissal older than `max(1, interval_min)` minutes, clear the
local dismissed flag. -/
def hkRepeat (env : TargetEnv) (s : TargetSt) : TargetSt :=
  if saverActiveB env = false ∧ env.cfg.saverEnabled = false
      ∧ env.cfg.noticeRepeatEnabled = true ∧ s.noticeDismissed = true
      ∧ 0 < env.noticeDismissedAt
      ∧ max 1 env.cfg.noticeRepeatIntervalMin * 600 ≤ env.now - env.noticeDismissedAt
  then { s with noticeDismissed := false } else s

/-- The bookkeeping half of the notice-coordinator stage, in source order:
enable-edge reset, `ui_active` / `saver_active` edge detection,
`saver_trigger_at` re-exposure, repeat re-exposure. -/
def noticeHousekeeping (env : TargetEnv) (s : TargetSt) : TargetSt :=
  hkRepeat env (hkTrigger env (hkSaverEdge env (hkUiEdge env (hkEnableEdge env s))))

/-- Decision branch 1, `ui_active > 0`: never interaction-lock; a visible
notice is unlocked and dropped behind; `last_interaction_lock := False`. -/
def decideUiActive (s : TargetSt) : TargetSt × List TargetEv :=
  if s.noticeVisible = true then
    ({ s with noticeLocked := false, lastInteractionLock := some false },
     [TargetEv.lockSet false, TargetEv.lowerNotice])
  else ({ s with lastInteractionLock := some false }, [])

/-- Decision branches 2 and 4, hide: a visible notice is hidden (Qt's
`hideEvent` clears its interaction lock); `last_interaction_lock := None`. -/
def decideHide (s : TargetSt) : TargetSt × List TargetEv :=
  if s.noticeVisible = true then
    ({ s with noticeVisible := false, noticeLocked := false,
              lastInteractionLock := none },
     [TargetEv.hideNotice, TargetEv.lockSet false])
  else ({ s with lastInteractionLock := none }, [])

/-- Decision branch 3, show: show the notice centered if hidden
(`show_centered` shows, raises, activates and locks, and the first show also
persists `notice_last_shown_at` / clears `notice_dismissed_at`), raise it,
re-apply the desired interaction lock when it differs from the memoized one,
and consume `pending_notice_after_saver`. -/
def decideShow (env : TargetEnv) (s : TargetSt) : TargetSt × List TargetEv :=
  let r1 :=
    if s.noticeVisible = false then
      ({ s with noticeVisible := true, noticeLocked := true },
       [TargetEv.showNotice, TargetEv.lockSet true,
        TargetEv.stateWrite [("notice_last_shown_at", env.now), ("notice_dismissed_at", 0)]])
    else (s, [])
  let evs := r1.2 ++ [TargetEv.raiseNotice]
  let desired : Bool := !uiActiveB env
  let r2 :=
    if r1.1.lastInteractionLock = none ∨ r1.1.lastInteractionLock ≠ some desired then
      ({ r1.1 with noticeLocked := desired, lastInteractionLock := some desired },
       evs ++ [TargetEv.lockSet desired])
    else (r1.1, evs)
  (if r2.1.pendingNoticeAfterSaver = true then { r2.1 with pendingNoticeAfterSaver := false }
   else r2.1,
   r2.2)

/-- The decision half of the notice-coordinator stage, applied to the
housekept state: the four-way visibility / interaction-lock decision of
`TargetWorker._tick`. -/
def noticeDecision (env : TargetEnv) (s : TargetSt) : TargetSt × List TargetEv :=
  let holdNotice : Prop := env.now < s.saverReleaseHoldUntil ∨ env.now < s.uiReleaseHoldUntil
  if uiActiveB env = true then decideUiActive s
  else if saverActiveB env = true then decideHide s
  else if env.cfg.noticeEnabled = true ∧ s.noticeDismissed = false ∧ ¬holdNotice then
    decideShow env s
  else decideHide s

/-- The notice-coordinator stage of `TargetWorker._tick` (lines between the
signature check and the `target_enabled` check): bookkeeping, then the
decision. -/
def targetNoticeStep (env : TargetEnv) (s : TargetSt) : TargetSt × List TargetEv :=
  noticeDecision env (noticeHousekeeping env s)

/-- The window-watchdog stage of `TargetWorker._tick`: while a canonical pid
exists without a visible window, run a 2-second grace timer and force-clear
the process state when it expires; a visible window cancels the timer. -/
def targetWatchdog (env : TargetEnv) (s : TargetSt) : TargetSt × List TargetEv :=
  match targetCurrentPid env s with
  | none => (s, [])
  | some pid =>
    if hasWin env pid = true then ({ s with missingWindowSince := none }, [])
    else
      match s.missingWindowSince with
      | none => ({ s with missingWindowSince := some env.now }, [])
      | some t0 =>
        if 20 ≤ env.now - t0 then
          let r := targetStopProc env s
          ({ r.1 with missingWindowSince := none }, r.2)
        else (s, [])

/-- The pending-launch block of `TargetWorker._tick`: when the scheduled
launch time has arrived, invoke `launch_chrome`, store the outcome as the
handle (a failed spawn stores no handle), stamp `lastLaunch`, clear
`pendingLaunchAt`, set `onceLaunched`, and in minimized mode schedule a
minimize 0.5 s (5 ticks of the unit) out for a successful launch. -/
def targetLaunchStep (env : TargetEnv) (s : TargetSt) : TargetSt × List TargetEv :=
  match s.pendingLaunchAt with
  | none => (s, [])
  | some p =>
    if p ≤ env.now then
      let ev := TargetEv.launch env.now s.lastLaunch
      let s1 := { s with proc := env.launchResult, lastLaunch := env.now,
                         pendingLaunchAt := none, onceLaunched := true,
                         missingWindowSince := none }
      if env.launchResult ≠ none ∧ env.cfg.targetWindowMode = "minimized" then
        ({ s1 with pendingMinimizePid := env.launchResult,
                   pendingMinimizeAt := some (env.now + 5) }, [ev])
      else (s1, [ev])
    else (s, [])

/-- The trailing minimize block of `TargetWorker._tick`. -/
def targetMinimizeStep (env : TargetEnv) (s : TargetSt) : TargetSt × List TargetEv :=
  match s.pendingMinimizePid with
  | none => (s, [])
  | some mp =>
    if env.cfg.targetWindowMode = "minimized" then
      if s.pendingMinimizeAt.getD 0 ≤ env.now then
        if hasWin env mp = true then
          ({ s with lastMinimizedPid := some mp, pendingMinimizePid := none,
                    pendingMinimizeAt := none }, [TargetEv.minimize mp])
        else (s, [])
      else (s, [])
    else (s, [])

/-- The launch-scheduler stage of `TargetWorker._tick`: when no live owned
process exists, scan for external processes on the target profile that own a
visible window and adopt the first (ending the tick); otherwise honour the
once policy, schedule a launch after the cooldown, and run the pending-launch
and minimize blocks. -/
def targetSched (env : TargetEnv) (s : TargetSt) : TargetSt × List TargetEv :=
  let launchAndMin := fun (s : TargetSt) =>
    let r1 := targetLaunchStep env s
    let r2 := targetMinimizeStep env r1.1
    (r2.1, r1.2 ++ r2.2)
  if s.proc = none ∨ env.procAlive = false then
    match env.scanPids.filter (hasWin env) with
    | pid0 :: _ =>
      ({ s with externalPid := some pid0, lastLaunch := env.now,
                pendingLaunchAt := none, onceLaunched := true }, [])
    | [] =>
      if env.cfg.targetRepeatMode = "once" ∧ s.onceLaunched = true then (s, [])
      else
        let s := if env.cfg.targetRelaunchCooldownSec ≤ env.now - s.lastLaunch
                    ∧ s.pendingLaunchAt = none
                 then { s with pendingLaunchAt := some (env.now + env.cfg.targetStartDelaySec) }
                 else s
        launchAndMin s
  else launchAndMin s

/-- One full `TargetWorker._tick`. -/
def targetTick (env : TargetEnv) (s : TargetSt) : TargetSt × List TargetEv :=
  let r1 := targetConfigStage env s
  let r2 := targetNoticeStep env r1.1
  if env.cfg.targetEnabled = false then
    let r3 := targetStopProc env r2.1
    ({ r3.1 with pendingLaunchAt := none, onceLaunched := false }, r1.2 ++ r2.2 ++ r3.2)
  else
    let r3 := targetWatchdog env r2.1
    let r4 := targetSched env r3.1
    (r4.1, r1.2 ++ r2.2 ++ r3.2 ++ r4.2)

/-- A whole run: fold `targetTick` over a list of tick environments,
collecting all events. -/
def targetRun (envs : List TargetEnv) (s : TargetSt) : TargetSt × List TargetEv :=
  match envs with
  | [] => (s, [])
  | e :: rest =>
    let r := targetTick e s
    let r2 := targetRun rest r.1
    (r2.1, r.2 ++ r2.2)

/-- The state after each tick of a run, in order. -/
def targetStates (envs : List TargetEnv) (s : TargetSt) : List TargetSt :=
  match envs with
  | [] => []
  | e :: rest =>
    let s1 := (targetTick e s).1
    s1 :: targetStates rest s1

/-- `TargetWorker.__init__`: fresh handles and timers; `last_notice_enabled`
is seeded from the config and `last_saver_trigger_at` from the coordination
state. -/
def targetInit (cfg : TargetCfg) (initSaverTriggerAt : ℤ) : TargetSt :=
  { proc := none, externalPid := none, lastMinimizedPid := none,
    pendingMinimizePid := none, pendingMinimizeAt := none,
    lastLaunch := 0, pendingLaunchAt := none, lastConfigSignature := none,
    noticeDismissed := false, lastNoticeEnabled := cfg.noticeEnabled,
    lastSaverTriggerAt := initSaverTriggerAt, pendingNoticeAfterSaver := false,
    lastInteractionLock := none, lastSaverActive := false,
    saverReleaseHoldUntil := 0, lastUiActive := false, uiReleaseHoldUntil := 0,
    onceLaunched := false, missingWindowSince := none,
    noticeVisible := false, noticeLocked := false }

/-! ## Audio worker (`AudioWorker.run` loop body)

One iteration of the `while True` loop of `AudioWorker.run` is one tick. -/

/-- The relaunch-relevant configuration signature of the audio worker. -/
abbrev AudioSig := List String × String × ℤ × ℤ × Bool × String

/-- The configuration fields read by one iteration of `AudioWorker.run`.
`audioUrls` models `self.cfg.audio_urls or [self.cfg.audio_url]`. -/
structure AudioCfg where
  audioUrls : List String
  audioWindowMode : String
  audioStartDelaySec : ℤ
  audioRelaunchCooldownSec : ℤ
  audioEnabled : Bool
  audioRepeatMode : String
  /-- `(self.cfg.audio_launch_mode or "chrome").lower()`. -/
  audioLaunchMode : String
  audioPwaAppId : String
  audioMinimizeDelaySec : ℤ
  deriving DecidableEq

/-- `config_signature` as computed at the top of the audio loop body. -/
def audioConfigSignature (cfg : AudioCfg) : AudioSig :=
  (cfg.audioUrls, cfg.audioWindowMode, cfg.audioStartDelaySec,
   cfg.audioRelaunchCooldownSec, cfg.audioEnabled, cfg.audioRepeatMode)

/-- `launch_mode == "pwa" and self.cfg.audio_pwa_app_id` (string truthiness:
nonempty). -/
def audioPwaMode (cfg : AudioCfg) : Prop :=
  cfg.audioLaunchMode = "pwa" ∧ cfg.audioPwaAppId ≠ ""

instance (cfg : AudioCfg) : Decidable (audioPwaMode cfg) := by
  unfold audioPwaMode; infer_instance

/-- Tick inputs of one audio loop iteration. -/
structure AudioEnv where
  cfg : AudioCfg
  now : ℤ
  procAlive : Bool
  /-- `find_chrome_processes_by_app_id(self.cfg.audio_pwa_app_id)`. -/
  appIdPids : List ℕ
  /-- `find_chrome_processes_by_profile(<work_dir>/chrome_profiles/audio)`. -/
  profilePids : List ℕ
  winPids : List ℕ
  /-- `launch_pwa(...)` outcome: spawned pid, or `none` on failure. -/
  pwaLaunchResult : Option ℕ
  /-- `launch_chrome(...)` outcome. -/
  chromeLaunchResult : Option ℕ
  deriving DecidableEq

/-- `bool(find_window_handles_by_pid(pid))` for this audio tick. -/
def hasWinA (env : AudioEnv) (pid : ℕ) : Bool := env.winPids.contains pid

/-- The mutable state of `AudioWorker`. -/
structure AudioSt where
  proc : Option ℕ
  externalPid : Option ℕ
  lastMinimizedPid : Option ℕ
  pendingMinimizePid : Option ℕ
  pendingMinimizeAt : Option ℤ
  pendingRestorePid : Option ℕ
  pendingRestoreAt : Option ℤ
  pendingRestoreAgainAt : Option ℤ
  lastLaunch : ℤ
  pendingLaunchAt : Option ℤ
  lastConfigSignature : Option AudioSig
  onceLaunched : Bool
  deriving DecidableEq

/-- Observable side effects of one audio tick. -/
inductive AudioEv where
  | terminate (pid : ℕ)
  /-- a `launch_pwa` invocation, with the deciding `now` and the prior
  `self.last_launch`. -/
  | launchPwa (now lastLaunchBefore : ℤ)
  /-- a `launch_chrome` invocation, with the deciding `now` and the prior
  `self.last_launch`. -/
  | launchChrome (now lastLaunchBefore : ℤ)
  | restore (pid : ℕ)
  | minimize (pid : ℕ)
  deriving DecidableEq

/-- `AudioWorker._stop_proc`: terminate the owned process if alive, drop the
handle, terminate the adopted external pid if any, and clear all pending
minimize / restore / launch bookkeeping. -/
def audioStopProc (env : AudioEnv) (s : AudioSt) : AudioSt × List AudioEv :=
  let e1 :=
    match s.proc with
    | some pid => if env.procAlive then [AudioEv.terminate pid] else []
    | none => []
  let e2 :=
    match s.externalPid with
    | some epid => [AudioEv.terminate epid]
    | none => []
  ({ s with proc := none, externalPid := none, lastMinimizedPid := none,
            pendingMinimizePid := none, pendingMinimizeAt := none,
            pendingRestorePid := none, pendingRestoreAt := none,
            pendingRestoreAgainAt := none, pendingLaunchAt := none }, e1 ++ e2)

/-- The config-signature stage at the top of the audio loop body. -/
def audioConfigStage (env : AudioEnv) (s : AudioSt) : AudioSt × List AudioEv :=
  let sig := audioConfigSignature env.cfg
  match s.lastConfigSignature with
  | none => ({ s with lastConfigSignature := some sig }, [])
  | some prev =>
    if sig = prev then (s, [])
    else
      let s1 := { s with lastConfigSignature := some sig }
      if s1.proc ≠ none ∧ env.procAlive = true then
        let r := audioStopProc env s1
        ({ r.1 with pendingLaunchAt := some (env.now + env.cfg.audioStartDelaySec),
                    lastLaunch := 0, onceLaunched := false }, r.2)
      else (s1, [])

/-- The launch attempt of the audio pending block: in pwa mode try
`launch_pwa` and fall back to `launch_chrome` on failure, otherwise launch
chrome directly.  Returns the stored handle (`None` when every spawn failed)
and the launcher invocations made. -/
def audioLaunchNow (env : AudioEnv) (lastBefore : ℤ) : Option ℕ × List AudioEv :=
  if audioPwaMode env.cfg then
    match env.pwaLaunchResult with
    | some pid => (some pid, [AudioEv.launchPwa env.now lastBefore])
    | none =>
      (env.chromeLaunchResult,
       [AudioEv.launchPwa env.now lastBefore, AudioEv.launchChrome env.now lastBefore])
  else (env.chromeLaunchResult, [AudioEv.launchChrome env.now lastBefore])

/-- The minimize/restore scheduling that runs at the end of the audio
pending block (only in minimized window mode). -/
def audioMinSchedule (env : AudioEnv) (s : AudioSt) : AudioSt :=
  if env.cfg.audioWindowMode = "minimized" then
    let mdelay := max 10 env.cfg.audioMinimizeDelaySec
    match s.proc with
    | some pid =>
      { s with pendingMinimizePid := some pid, pendingRestorePid := some pid,
               pendingRestoreAt := some (env.now + 3),
               pendingRestoreAgainAt := some (env.now + 12),
               pendingMinimizeAt := some (env.now + mdelay) }
    | none =>
      match s.externalPid with
      | some epid =>
        { s with pendingMinimizePid := some epid,
                 pendingMinimizeAt := some (env.now + mdelay) }
      | none => s
  else s

/-- The pending-launch block of the audio loop (including the
minimize/restore scheduling that runs whenever `pending_launch_at` was set on
entering the block).  In minimized mode the chrome window mode is downgraded
to `normal` — a rendering-only distinction not tracked here. -/
def audioPendingStep (env : AudioEnv) (s : AudioSt) : AudioSt × List AudioEv :=
  match s.pendingLaunchAt with
  | none => (s, [])
  | some p =>
    let r :=
      if p ≤ env.now then
        let lr := audioLaunchNow env s.lastLaunch
        ({ s with proc := lr.1, lastLaunch := env.now, pendingLaunchAt := none,
                  onceLaunched := true }, lr.2)
      else (s, [])
    (audioMinSchedule env r.1, r.2)

/-- The first restore block of the audio loop. -/
def audioRestoreStep (env : AudioEnv) (s : AudioSt) : AudioSt × List AudioEv :=
  match s.pendingRestorePid with
  | none => (s, [])
  | some rp =>
    if env.cfg.audioWindowMode = "minimized" then
      if s.pendingRestoreAt.getD 0 ≤ env.now then
        if hasWinA env rp = true then
          ({ s with pendingRestorePid := none, pendingRestoreAt := none },
           [AudioEv.restore rp])
        else (s, [])
      else (s, [])
    else (s, [])

/-- The second (re-)restore block of the audio loop. -/
def audioRestoreAgainStep (env : AudioEnv) (s : AudioSt) : AudioSt × List AudioEv :=
  match s.pendingRestoreAgainAt with
  | none => (s, [])
  | some ra =>
    if env.cfg.audioWindowMode = "minimized" then
      if ra ≤ env.now then
        let pid :=
          match s.proc with
          | some pp => if env.procAlive then some pp else s.externalPid
          | none => s.externalPid
        let evs :=
          match pid with
          | some p2 => if hasWinA env p2 = true then [AudioEv.restore p2] else []
          | none => []
        ({ s with pendingRestoreAgainAt := none }, evs)
      else (s, [])
    else (s, [])

/-- The trailing minimize block of the audio loop (in pwa mode a vanished
minimize target is re-pointed at the first visible app-id process). -/
def audioMinimizeStep (env : AudioEnv) (s : AudioSt) : AudioSt × List AudioEv :=
  match s.pendingMinimizePid with
  | none => (s, [])
  | some mp =>
    if env.cfg.audioWindowMode = "minimized" then
      if s.pendingMinimizeAt.getD 0 ≤ env.now then
        let mp2 :=
          if hasWinA env mp = false ∧ audioPwaMode env.cfg then
            match env.appIdPids.filter (hasWinA env) with
            | c :: _ => c
            | [] => mp
          else mp
        if hasWinA env mp2 = true then
          ({ s with lastMinimizedPid := some mp2, pendingMinimizePid := none,
                    pendingMinimizeAt := none }, [AudioEv.minimize mp2])
        else ({ s with pendingMinimizePid := some mp2 }, [])
      else (s, [])
    else (s, [])

/-- Adoption of an externally discovered pid by the audio worker:
`external_pid := pid`, `last_launch := now`, `pending_launch_at := None`,
`once_launched := True`, and the loop `continue`s. -/
def audioAdopt (env : AudioEnv) (s : AudioSt) (pid : ℕ) : AudioSt :=
  { s with externalPid := some pid, lastLaunch := env.now,
           pendingLaunchAt := none, onceLaunched := true }

/-- One full iteration of the `AudioWorker.run` loop body (the trailing
`time.sleep` only paces the loop).  The scan / dedup / adoption section runs
when no live owned process exists; each `continue` of the source ends the
tick. -/
def audioTick (env : AudioEnv) (s : AudioSt) : AudioSt × List AudioEv :=
  let cfg := env.cfg
  let r0 := audioConfigStage env s
  let s := r0.1
  let ev0 := r0.2
  if cfg.audioEnabled = false then
    let r := audioStopProc env s
    ({ r.1 with pendingLaunchAt := none, externalPid := none, onceLaunched := false },
     ev0 ++ r.2)
  else
    let rest := fun (s : AudioSt) (evs : List AudioEv) =>
      let r1 := audioPendingStep env s
      let r2 := audioRestoreStep env r1.1
      let r3 := audioRestoreAgainStep env r2.1
      let r4 := audioMinimizeStep env r3.1
      (r4.1, evs ++ r1.2 ++ r2.2 ++ r3.2 ++ r4.2)
    let afterScan := fun (s : AudioSt) (evs : List AudioEv) =>
      if cfg.audioRepeatMode = "once" ∧ s.onceLaunched = true then (s, evs)
      else
        let s := if cfg.audioRelaunchCooldownSec ≤ env.now - s.lastLaunch
                    ∧ s.pendingLaunchAt = none
                 then { s with pendingLaunchAt := some (env.now + cfg.audioStartDelaySec) }
                 else s
        rest s evs
    if s.proc = none ∨ env.procAlive = false then
      if audioPwaMode cfg then
        match env.appIdPids.filter (hasWinA env) with
        | v0 :: _ => (audioAdopt env s v0, ev0)
        | [] =>
          match env.appIdPids with
          | e0 :: _ =>
            if env.now - s.lastLaunch < cfg.audioRelaunchCooldownSec then
              (audioAdopt env s e0, ev0)
            else afterScan s ev0
          | [] => afterScan s ev0
      else
        match env.profilePids with
        | [] => afterScan s ev0
        | [e0] => (audioAdopt env s e0, ev0)
        | e0 :: _ :: _ =>
          let visible := env.profilePids.filter (hasWinA env)
          let keep := visible.headD e0
          let termEvs := (env.profilePids.filter (fun pid => pid ≠ keep)).map AudioEv.terminate
          (audioAdopt env s keep, ev0 ++ termEvs)
    else rest s ev0

/-- A whole audio run: fold `audioTick`, collecting all events. -/
def audioRun (envs : List AudioEnv) (s : AudioSt) : AudioSt × List AudioEv :=
  match envs with
  | [] => (s, [])
  | e :: tail =>
    let r := audioTick e s
    let r2 := audioRun tail r.1
    (r2.1, r.2 ++ r2.2)

/-- `AudioWorker.__init__`. -/
def audioInit : AudioSt :=
  { proc := none, externalPid := none, lastMinimizedPid := none,
    pendingMinimizePid := none, pendingMinimizeAt := none,
    pendingRestorePid := none, pendingRestoreAt := none,
    pendingRestoreAgainAt := none, lastLaunch := 0, pendingLaunchAt := none,
    lastConfigSignature := none, onceLaunched := false }

/-! ## Claims about the coordination state store (C6, C10) -/

/-- After one counter update the stored value under `key` is the clamped
read-modify-write result. -/
theorem updateNoticeStateCounter_read (st : StateMap) (key : String) (d : ℤ) :
    updateNoticeStateCounter st key d key = some (max 0 (counterRead st key + d)) := by
  unfold updateNoticeStateCounter
  simp

/-- Folding further counter updates keeps the value under `key` present and
nonnegative. -/
theorem counterFold_nonneg (key : String) (ds : List ℤ) :
    ∀ st : StateMap, (∃ v, st key = some v ∧ 0 ≤ v) →
      ∃ v, (ds.foldl (fun m d => updateNoticeStateCounter m key d) st) key = some v
           ∧ 0 ≤ v := by
  induction ds with
  | nil => intro st h; simpa using h
  | cons d tail ih =>
    intro st _
    simp only [List.foldl_cons]
    exact ih _ ⟨_, updateNoticeStateCounter_read st key d, le_max_left 0 _⟩

/-- C6: every read-modify-write of `update_notice_state_counter` stores
`max(0, current + delta)` under the counter key, and therefore any nonempty
sequence of increment/decrement operations (including duplicated decrements)
leaves a stored value that is never negative. -/
theorem refcount_never_negative :
    (∀ (st : StateMap) (key : String) (delta : ℤ),
        updateNoticeStateCounter st key delta key
          = some (max 0 (counterRead st key + delta)))
    ∧ (∀ (st : StateMap) (key : String) (ds : List ℤ), ds ≠ [] →
        ∃ v, (ds.foldl (fun m d => updateNoticeStateCounter m key d) st) key = some v
             ∧ 0 ≤ v) := by
  refine ⟨updateNoticeStateCounter_read, ?_⟩
  intro st key ds hne
  match ds with
  | [] => exact absurd rfl hne
  | d :: tail =>
    simp only [List.foldl_cons]
    exact counterFold_nonneg key tail _
      ⟨_, updateNoticeStateCounter_read st key d, le_max_left 0 _⟩

/-- Witness for C6: starting from an empty record, the duplicate-decrement
sequence `+1, -1, -1` leaves `ui_active` stored and nonnegative. -/
theorem refcount_never_negative_witness :
    ∃ v, (([1, -1, -1] : List ℤ).foldl
            (fun m d => updateNoticeStateCounter m "ui_active" d) emptyState) "ui_active"
           = some v ∧ 0 ≤ v :=
  refcount_never_negative.2 emptyState "ui_active" [1, -1, -1] (by decide)

/-- A sample coordination record used by the C10 witness. -/
def sampleState : StateMap := fun k => if k = "saver_active" then some 1 else none

/-- C10: `write_notice_state` first reads the existing record and changes only
the named keys, and `update_notice_state_counter` changes only its counter
key, so after the atomic replace every unnamed key keeps its previous
value. -/
theorem partial_update_frame :
    (∀ (st : StateMap) (updates : List (String × ℤ)) (k : String),
        (∀ p ∈ updates, p.1 ≠ k) → writeNoticeState st updates k = st k)
    ∧ (∀ (st : StateMap) (key k : String) (delta : ℤ),
        k ≠ key → updateNoticeStateCounter st key delta k = st k) := by
  constructor
  · intro st updates k h
    unfold writeNoticeState
    have hnone : updates.find? (fun p => p.fst == k) = none := by
      apply List.find?_eq_none.mpr
      intro p hp
      simpa using h p hp
    simp [hnone]
  · intro st key k d h
    unfold updateNoticeStateCounter
    simp [h]

/-- Witness for C10: updating `notice_dismissed_at` (resp. the `ui_active`
counter) leaves the unrelated `saver_active` field of a sample record
unchanged. -/
theorem partial_update_frame_witness :
    writeNoticeState sampleState [("notice_dismissed_at", 5)] "saver_active"
        = sampleState "saver_active"
    ∧ updateNoticeStateCounter sampleState "ui_active" 1 "saver_active"
        = sampleState "saver_active" :=
  ⟨partial_update_frame.1 sampleState [("notice_dismissed_at", 5)] "saver_active" (by decide),
   partial_update_frame.2 sampleState "ui_active" "saver_active" 1 (by decide)⟩

/-! ## Claim about the screensaver state machine (C4) -/

/-- C4: with `activeThresholdSec < idleToShowSec`, the saver enabled and the
start delay passed, one saver tick moves Hidden to Visible exactly when the
sampled idle duration reaches `idleToShowSec` — writing `saverActive=1` and a
fresh `saverTriggerAt` on that transition — moves Visible to Hidden exactly
when the idle duration is at most `activeThresholdSec` — writing
`saverActive=0` — and leaves the state (and the coordination record)
untouched for every idle value strictly between the two thresholds. -/
theorem idle_hysteresis (cfg : SaverCfg) (now idle : ℤ) (s : SaverSt)
    (hen : cfg.saverEnabled = true)
    (hdelay : cfg.saverStartDelaySec ≤ now - s.startedAt)
    (hlt : cfg.activeThresholdSec < cfg.idleToShowSec)
    (hsync : s.windowVisible = s.saverVisible) :
    (s.saverVisible = false → cfg.idleToShowSec ≤ idle →
       (saverTick cfg now idle s).1.saverVisible = true
       ∧ (saverTick cfg now idle s).1.windowVisible = true
       ∧ (saverTick cfg now idle s).2 = [SaverEv.write 1 (some now)])
    ∧ (s.saverVisible = false → idle < cfg.idleToShowSec →
       (saverTick cfg now idle s).1 = s ∧ (saverTick cfg now idle s).2 = [])
    ∧ (s.saverVisible = true → idle ≤ cfg.activeThresholdSec →
       (saverTick cfg now idle s).1.saverVisible = false
       ∧ (saverTick cfg now idle s).1.windowVisible = false
       ∧ (saverTick cfg now idle s).2 = [SaverEv.write 0 none])
    ∧ (s.saverVisible = true → cfg.activeThresholdSec < idle →
       (saverTick cfg now idle s).1 = s ∧ (saverTick cfg now idle s).2 = []) := by
  obtain ⟨st, sv, wv⟩ := s
  dsimp only at hdelay hsync ⊢
  subst hsync
  refine ⟨?_, ?_, ?_, ?_⟩ <;> intro hv hidle <;> subst hv <;> unfold saverTick <;>
    split_ifs <;> (try dsimp only at *) <;> first
      | rfl
      | (exfalso; omega)
      | (refine ⟨rfl, rfl, rfl⟩)
      | simp_all

/-- Saver configuration of the C4 witness: the spec example
`activeThresholdSec = 1 s, idleToShowSec = 10 s` in tenth-second units. -/
def cfgSW : SaverCfg :=
  { saverEnabled := true, saverStartDelaySec := 0,
    activeThresholdSec := 10, idleToShowSec := 100 }

/-- Hidden saver state of the C4 witness. -/
def sHiddenW : SaverSt := { startedAt := 0, saverVisible := false, windowVisible := false }

/-- Visible saver state of the C4 witness. -/
def sVisibleW : SaverSt := { startedAt := 0, saverVisible := true, windowVisible := true }

/-- Witness for C4: with thresholds 1 s / 10 s, an idle sample of 12 s shows
the saver and writes the trigger, 5 s in the dead zone changes nothing in
either state, and 0.5 s hides a visible saver. -/
theorem idle_hysteresis_witness :
    ((saverTick cfgSW 500 120 sHiddenW).1.saverVisible = true
      ∧ (saverTick cfgSW 500 120 sHiddenW).1.windowVisible = true
      ∧ (saverTick cfgSW 500 120 sHiddenW).2 = [SaverEv.write 1 (some 500)])
    ∧ ((saverTick cfgSW 500 50 sHiddenW).1 = sHiddenW
      ∧ (saverTick cfgSW 500 50 sHiddenW).2 = [])
    ∧ ((saverTick cfgSW 500 5 sVisibleW).1.saverVisible = false
      ∧ (saverTick cfgSW 500 5 sVisibleW).1.windowVisible = false
      ∧ (saverTick cfgSW 500 5 sVisibleW).2 = [SaverEv.write 0 none])
    ∧ ((saverTick cfgSW 500 50 sVisibleW).1 = sVisibleW
      ∧ (saverTick cfgSW 500 50 sVisibleW).2 = []) :=
  ⟨(idle_hysteresis cfgSW 500 120 sHiddenW rfl (by decide) (by decide) rfl).1
      rfl (by decide),
   (idle_hysteresis cfgSW 500 50 sHiddenW rfl (by decide) (by decide) rfl).2.1
      rfl (by decide),
   (idle_hysteresis cfgSW 500 5 sVisibleW rfl (by decide) (by decide) rfl).2.2.1
      rfl (by decide),
   (idle_hysteresis cfgSW 500 50 sVisibleW rfl (by decide) (by decide) rfl).2.2.2
      rfl (by decide)⟩

/-! ## Claim about the window watchdog (C8) -/

/-- C8: on a tick where a canonical pid exists, the target watchdog cancels
the grace timer when a visible window is found (clearing nothing else),
starts the timer when the window is missing and no timer runs, merely
continues a running timer that is younger than the 2-second grace window,
and force-clears the canonical process state (owned handle and adopted pid)
once the window has been missing for the full grace window. -/
theorem window_watchdog_grace (env : TargetEnv) (s : TargetSt) :
    (∀ pid, targetCurrentPid env s = some pid → hasWin env pid = true →
        (targetWatchdog env s).1 = { s with missingWindowSince := none }
        ∧ (targetWatchdog env s).2 = [])
    ∧ (∀ pid, targetCurrentPid env s = some pid → hasWin env pid = false →
        s.missingWindowSince = none →
        (targetWatchdog env s).1 = { s with missingWindowSince := some env.now }
        ∧ (targetWatchdog env s).2 = [])
    ∧ (∀ pid t0, targetCurrentPid env s = some pid → hasWin env pid = false →
        s.missingWindowSince = some t0 → env.now - t0 < 20 →
        (targetWatchdog env s).1 = s ∧ (targetWatchdog env s).2 = [])
    ∧ (∀ pid t0, targetCurrentPid env s = some pid → hasWin env pid = false →
        s.missingWindowSince = some t0 → 20 ≤ env.now - t0 →
        (targetWatchdog env s).1.proc = none
        ∧ (targetWatchdog env s).1.externalPid = none
        ∧ (targetWatchdog env s).1.missingWindowSince = none) := by
  refine ⟨?_, ?_, ?_, ?_⟩
  · intro pid hpid hwin
    simp [targetWatchdog, hpid, hwin]
  · intro pid hpid hwin hmiss
    simp [targetWatchdog, hpid, hwin, hmiss]
  · intro pid t0 hpid hwin hmiss hlt
    simp [targetWatchdog, hpid, hwin, hmiss, show ¬(20 ≤ env.now - t0) by omega]
  · intro pid t0 hpid hwin hmiss hge
    simp [targetWatchdog, targetStopProc, hpid, hwin, hmiss, hge]

/-- Target configuration used by several witnesses. -/
def cfgTW : TargetCfg :=
  { urls := ["u"], targetWindowMode := "normal", targetStartDelaySec := 0,
    targetRelaunchCooldownSec := 100, targetEnabled := true,
    targetRepeatMode := "repeat", noticeEnabled := false,
    noticeRepeatEnabled := false, noticeRepeatIntervalMin := 5,
    saverEnabled := false }

/-- Watchdog witness environment: pid 7 owns a visible window. -/
def envW8 : TargetEnv :=
  { cfg := cfgTW, now := 1000, procAlive := true, scanPids := [], winPids := [7],
    launchResult := none, uiActiveCount := 0, saverActiveVal := 0,
    saverTriggerAt := 0, noticeDismissedAt := 0 }

/-- Watchdog witness environment: no window is visible. -/
def envW8m : TargetEnv := { envW8 with winPids := [] }

/-- Watchdog witness state: an owned process with pid 7. -/
def sW8 : TargetSt := { targetInit cfgTW 0 with proc := some 7 }

/-- Witness for C8: with an owned pid 7, a visible window cancels the timer,
a missing window starts it, a 0.5-second-old timer merely continues, and a
10-second-old timer force-clears the process state. -/
theorem window_watchdog_grace_witness :
    ((targetWatchdog envW8 sW8).1 = { sW8 with missingWindowSince := none }
      ∧ (targetWatchdog envW8 sW8).2 = [])
    ∧ ((targetWatchdog envW8m sW8).1 = { sW8 with missingWindowSince := some 1000 }
      ∧ (targetWatchdog envW8m sW8).2 = [])
    ∧ ((targetWatchdog envW8m { sW8 with missingWindowSince := some 995 }).1
          = { sW8 with missingWindowSince := some 995 }
      ∧ (targetWatchdog envW8m { sW8 with missingWindowSince := some 995 }).2 = [])
    ∧ ((targetWatchdog envW8m { sW8 with missingWindowSince := some 900 }).1.proc = none
      ∧ (targetWatchdog envW8m { sW8 with missingWindowSince := some 900 }).1.externalPid = none
      ∧ (targetWatchdog envW8m { sW8 with missingWindowSince := some 900 }).1.missingWindowSince
          = none) :=
  ⟨(window_watchdog_grace envW8 sW8).1 7 (by decide) (by decide),
   (window_watchdog_grace envW8m sW8).2.1 7 (by decide) (by decide) (by decide),
   (window_watchdog_grace envW8m { sW8 with missingWindowSince := some 995 }).2.2.1 7 995
     (by decide) (by decide) (by decide) (by decide),
   (window_watchdog_grace envW8m { sW8 with missingWindowSince := some 900 }).2.2.2 7 900
     (by decide) (by decide) (by decide) (by decide)⟩

/-! ## Claim about config-signature changes (C7) -/

/-- Configuration whose signature the C7 counterexample starts from. -/
def cfgC7a : TargetCfg := { cfgTW with urls := ["a"], targetRelaunchCooldownSec := 10000 }

/-- Changed configuration (different URL set) of the C7 counterexample. -/
def cfgC7b : TargetCfg := { cfgC7a with urls := ["b"] }

/-- C7 counterexample state: the canonical instance is an adopted external
pid 7 (no owned handle); the previous signature is that of `cfgC7a`. -/
def sC7 : TargetSt :=
  { targetInit cfgC7a 0 with
    lastConfigSignature := some (targetConfigSignature cfgC7a),
    externalPid := some 7, lastLaunch := 500, onceLaunched := true }

/-- C7 counterexample environment: the loaded snapshot is `cfgC7b`, so the
signature differs from the previous tick, while the adopted pid 7 is running
with a visible window. -/
def envC7 : TargetEnv :=
  { cfg := cfgC7b, now := 1000, procAlive := true, scanPids := [], winPids := [7],
    launchResult := none, uiActiveCount := 0, saverActiveVal := 0,
    saverTriggerAt := 0, noticeDismissedAt := 0 }

/-- Counterexample to C7 as stated: the signature changed and a process for
the role is running (the adopted canonical pid 7, which owns a visible
window), yet the tick terminates nothing and resets neither
`pendingLaunchAt` (still `none`, not `now + startDelay`) nor `lastLaunch`
(still `500`, not `0`): the guard `self.proc and self.proc.poll() is None`
only covers a worker-owned process. -/
theorem config_change_reset_counterexample :
    targetConfigSignature cfgC7b ≠ targetConfigSignature cfgC7a
    ∧ sC7.externalPid = some 7
    ∧ sC7.proc = none
    ∧ (targetTick envC7 sC7).2 = []
    ∧ (targetTick envC7 sC7).1.pendingLaunchAt = none
    ∧ (targetTick envC7 sC7).1.lastLaunch = 500
    ∧ (targetTick envC7 sC7).1.externalPid = some 7 := by decide

/-- C7 amended: on a signature change the immediate terminate-and-reset
(`pendingLaunchAt = now + startDelay`, `lastLaunch = 0`, `onceLaunched`
cleared) happens exactly when the running process is one the worker spawned
(`self.proc` alive); when there is no owned live process — in particular when
the canonical instance is an adopted external pid — the stage only records
the new signature and changes nothing else.  This holds for both the target
and the audio scheduler. -/
theorem config_change_reset (prev : TargetSig) (prevA : AudioSig) :
    (∀ (env : TargetEnv) (s : TargetSt) (pid : ℕ),
      s.lastConfigSignature = some prev → targetConfigSignature env.cfg ≠ prev →
      s.proc = some pid → env.procAlive = true →
        (targetConfigStage env s).1.proc = none
        ∧ (targetConfigStage env s).1.pendingLaunchAt
            = some (env.now + env.cfg.targetStartDelaySec)
        ∧ (targetConfigStage env s).1.lastLaunch = 0
        ∧ (targetConfigStage env s).1.onceLaunched = false
        ∧ (targetConfigStage env s).2 = [TargetEv.terminate pid])
    ∧ (∀ (env : TargetEnv) (s : TargetSt),
      s.lastConfigSignature = some prev → targetConfigSignature env.cfg ≠ prev →
      s.proc = none →
        (targetConfigStage env s).1
            = { s with lastConfigSignature := some (targetConfigSignature env.cfg) }
        ∧ (targetConfigStage env s).2 = [])
    ∧ (∀ (env : AudioEnv) (s : AudioSt) (pid : ℕ),
      s.lastConfigSignature = some prevA → audioConfigSignature env.cfg ≠ prevA →
      s.proc = some pid → env.procAlive = true →
        (audioConfigStage env s).1.proc = none
        ∧ (audioConfigStage env s).1.pendingLaunchAt
            = some (env.now + env.cfg.audioStartDelaySec)
        ∧ (audioConfigStage env s).1.lastLaunch = 0
        ∧ (audioConfigStage env s).1.onceLaunched = false
        ∧ AudioEv.terminate pid ∈ (audioConfigStage env s).2)
    ∧ (∀ (env : AudioEnv) (s : AudioSt),
      s.lastConfigSignature = some prevA → audioConfigSignature env.cfg ≠ prevA →
      s.proc = none →
        (audioConfigStage env s).1
            = { s with lastConfigSignature := some (audioConfigSignature env.cfg) }
        ∧ (audioConfigStage env s).2 = []) := by
  refine ⟨?_, ?_, ?_, ?_⟩
  · intro env s pid hsig hne hproc halive
    simp [targetConfigStage, targetStopProc, hsig, hne, hproc, halive]
  · intro env s hsig hne hproc
    simp [targetConfigStage, hsig, hne, hproc]
  · intro env s pid hsig hne hproc halive
    simp [audioConfigStage, audioStopProc, hsig, hne, hproc, halive]
  · intro env s hsig hne hproc
    simp [audioConfigStage, hsig, hne, hproc]

/-- Audio configurations of the C7 witness. -/
def cfgC7A : AudioCfg :=
  { audioUrls := ["a"], audioWindowMode := "normal", audioStartDelaySec := 30,
    audioRelaunchCooldownSec := 10000, audioEnabled := true,
    audioRepeatMode := "repeat", audioLaunchMode := "chrome",
    audioPwaAppId := "", audioMinimizeDelaySec := 30 }

/-- Changed audio configuration of the C7 witness. -/
def cfgC7B : AudioCfg := { cfgC7A with audioUrls := ["b"] }

/-- Changed target configuration with a positive start delay, for the C7
witness. -/
def cfgC7bw : TargetCfg := { cfgC7b with targetStartDelaySec := 30 }

/-- Target environment of the C7 witness (changed snapshot, owned live
process). -/
def envC7w : TargetEnv := { envC7 with cfg := cfgC7bw }

/-- Target state of the C7 witness: an owned live process with pid 9. -/
def sC7w : TargetSt := { sC7 with proc := some 9, externalPid := none }

/-- Audio environment of the C7 witness. -/
def envC7aw : AudioEnv :=
  { cfg := cfgC7B, now := 1000, procAlive := true, appIdPids := [],
    profilePids := [], winPids := [], pwaLaunchResult := none,
    chromeLaunchResult := none }

/-- Audio state of the C7 witness: an owned live process with pid 9 and the
previous signature recorded. -/
def sC7aw : AudioSt :=
  { audioInit with
    lastConfigSignature := some (audioConfigSignature cfgC7A),
    proc := some 9, lastLaunch := 500, onceLaunched := true }

/-- Witness for C7 (amended): on a URL change the owned live process 9 is
terminated and the schedule reset for both workers, while a handle-less
target state is only re-signed. -/
theorem config_change_reset_witness :
    ((targetConfigStage envC7w sC7w).1.proc = none
      ∧ (targetConfigStage envC7w sC7w).1.pendingLaunchAt = some 1030
      ∧ (targetConfigStage envC7w sC7w).1.lastLaunch = 0
      ∧ (targetConfigStage envC7w sC7w).1.onceLaunched = false
      ∧ (targetConfigStage envC7w sC7w).2 = [TargetEv.terminate 9])
    ∧ ((targetConfigStage envC7 sC7).1
          = { sC7 with lastConfigSignature := some (targetConfigSignature cfgC7b) }
      ∧ (targetConfigStage envC7 sC7).2 = [])
    ∧ ((audioConfigStage envC7aw sC7aw).1.proc = none
      ∧ (audioConfigStage envC7aw sC7aw).1.pendingLaunchAt = some 1030
      ∧ (audioConfigStage envC7aw sC7aw).1.lastLaunch = 0
      ∧ (audioConfigStage envC7aw sC7aw).1.onceLaunched = false
      ∧ AudioEv.terminate 9 ∈ (audioConfigStage envC7aw sC7aw).2) := by
  refine ⟨?_, ?_, ?_⟩
  · have h := (config_change_reset (targetConfigSignature cfgC7a)
      (audioConfigSignature cfgC7A)).1 envC7w sC7w 9 (by decide) (by decide) (by decide) rfl
    simpa using h
  · exact (config_change_reset (targetConfigSignature cfgC7a)
      (audioConfigSignature cfgC7A)).2.1 envC7 sC7 (by decide) (by decide) (by decide)
  · have h := (config_change_reset (targetConfigSignature cfgC7a)
      (audioConfigSignature cfgC7A)).2.2.1 envC7aw sC7aw 9 (by decide) (by decide) (by decide) rfl
    simpa using h

/-! ## Event projections and frame relations for the target worker -/

/-- The pids terminated by the recorded target events. -/
def targetTerminated (evs : List TargetEv) : List ℕ :=
  evs.filterMap fun e =>
    match e with
    | TargetEv.terminate p => some p
    | _ => none

/-- The pids terminated by the recorded audio events. -/
def audioTerminated (evs : List AudioEv) : List ℕ :=
  evs.filterMap fun e =>
    match e with
    | AudioEv.terminate p => some p
    | _ => none

/-- The scan matches (target-profile processes) that survive a tick with the
given events. -/
def targetScanSurvivors (env : TargetEnv) (evs : List TargetEv) : List ℕ :=
  env.scanPids.filter fun pid => !(targetTerminated evs).contains pid

/-- The scan matches (audio-profile processes) that survive a tick with the
given events. -/
def audioScanSurvivors (env : AudioEnv) (evs : List AudioEv) : List ℕ :=
  env.profilePids.filter fun pid => !(audioTerminated evs).contains pid

/-- The `(now, lastLaunchBefore)` stamps of the launcher invocations among
the recorded target events. -/
def targetLaunchTimes (evs : List TargetEv) : List (ℤ × ℤ) :=
  evs.filterMap fun e =>
    match e with
    | TargetEv.launch n l => some (n, l)
    | _ => none

/-- The arguments of the `set_interaction_lock` calls among the recorded
target events. -/
def targetLockSets (evs : List TargetEv) : List Bool :=
  evs.filterMap fun e =>
    match e with
    | TargetEv.lockSet b => some b
    | _ => none

/-- `t` agrees with `s` on every launch-scheduler and window-bookkeeping
field (the fields the notice coordinator never writes). -/
def SchedSame (t s : TargetSt) : Prop :=
  t.proc = s.proc ∧ t.externalPid = s.externalPid
  ∧ t.lastMinimizedPid = s.lastMinimizedPid
  ∧ t.pendingMinimizePid = s.pendingMinimizePid
  ∧ t.pendingMinimizeAt = s.pendingMinimizeAt
  ∧ t.lastLaunch = s.lastLaunch ∧ t.pendingLaunchAt = s.pendingLaunchAt
  ∧ t.lastConfigSignature = s.lastConfigSignature
  ∧ t.onceLaunched = s.onceLaunched
  ∧ t.missingWindowSince = s.missingWindowSince

/-- `SchedSame` is transitive. -/
theorem schedSame_trans {u t s : TargetSt} (h1 : SchedSame u t) (h2 : SchedSame t s) :
    SchedSame u s := by
  obtain ⟨a1, a2, a3, a4, a5, a6, a7, a8, a9, a10⟩ := h1
  obtain ⟨b1, b2, b3, b4, b5, b6, b7, b8, b9, b10⟩ := h2
  exact ⟨a1.trans b1, a2.trans b2, a3.trans b3, a4.trans b4, a5.trans b5,
         a6.trans b6, a7.trans b7, a8.trans b8, a9.trans b9, a10.trans b10⟩

/-- `t` agrees with `s` on the scheduler fields and on the notice window's
state (`visible`, `locked`, memoized lock). -/
def NoticeReadOnly (t s : TargetSt) : Prop :=
  SchedSame t s ∧ t.noticeVisible = s.noticeVisible
  ∧ t.noticeLocked = s.noticeLocked
  ∧ t.lastInteractionLock = s.lastInteractionLock

/-- `NoticeReadOnly` is transitive. -/
theorem noticeReadOnly_trans {u t s : TargetSt}
    (h1 : NoticeReadOnly u t) (h2 : NoticeReadOnly t s) : NoticeReadOnly u s :=
  ⟨schedSame_trans h1.1 h2.1, h1.2.1.trans h2.2.1, h1.2.2.1.trans h2.2.2.1,
   h1.2.2.2.trans h2.2.2.2⟩

/-- The enable-edge bookkeeping touches neither the scheduler nor the notice
window state. -/
theorem hkEnableEdge_ro (env : TargetEnv) (s : TargetSt) :
    NoticeReadOnly (hkEnableEdge env s) s := by
  unfold hkEnableEdge
  split_ifs <;> simp [NoticeReadOnly, SchedSame]

/-- The `ui_active` edge bookkeeping touches neither the scheduler nor the
notice window state. -/
theorem hkUiEdge_ro (env : TargetEnv) (s : TargetSt) :
    NoticeReadOnly (hkUiEdge env s) s := by
  unfold hkUiEdge
  split_ifs <;> simp [NoticeReadOnly, SchedSame]

/-- The `saver_active` edge bookkeeping touches neither the scheduler nor
the notice window state. -/
theorem hkSaverEdge_ro (env : TargetEnv) (s : TargetSt) :
    NoticeReadOnly (hkSaverEdge env s) s := by
  unfold hkSaverEdge
  split_ifs <;> simp [NoticeReadOnly, SchedSame]

/-- The trigger re-exposure bookkeeping touches neither the scheduler nor
the notice window state. -/
theorem hkTrigger_ro (env : TargetEnv) (s : TargetSt) :
    NoticeReadOnly (hkTrigger env s) s := by
  unfold hkTrigger
  split_ifs <;> simp [NoticeReadOnly, SchedSame]

/-- The repeat re-exposure bookkeeping touches neither the scheduler nor the
notice window state. -/
theorem hkRepeat_ro (env : TargetEnv) (s : TargetSt) :
    NoticeReadOnly (hkRepeat env s) s := by
  unfold hkRepeat
  split_ifs <;> simp [NoticeReadOnly, SchedSame]

/-- The whole bookkeeping half touches neither the scheduler nor the notice
window state. -/
theorem noticeHousekeeping_ro (env : TargetEnv) (s : TargetSt) :
    NoticeReadOnly (noticeHousekeeping env s) s := by
  unfold noticeHousekeeping
  exact noticeReadOnly_trans (hkRepeat_ro env _)
    (noticeReadOnly_trans (hkTrigger_ro env _)
      (noticeReadOnly_trans (hkSaverEdge_ro env _)
        (noticeReadOnly_trans (hkUiEdge_ro env _) (hkEnableEdge_ro env s))))

/-- Branch 1 of the decision leaves the scheduler fields alone and emits
neither terminations nor launches. -/
theorem decideUiActive_sched (s : TargetSt) :
    SchedSame (decideUiActive s).1 s
    ∧ targetTerminated (decideUiActive s).2 = []
    ∧ targetLaunchTimes (decideUiActive s).2 = [] := by
  unfold decideUiActive
  split_ifs <;> simp [SchedSame, targetTerminated, targetLaunchTimes]

/-- The hide branches of the decision leave the scheduler fields alone and
emit neither terminations nor launches. -/
theorem decideHide_sched (s : TargetSt) :
    SchedSame (decideHide s).1 s
    ∧ targetTerminated (decideHide s).2 = []
    ∧ targetLaunchTimes (decideHide s).2 = [] := by
  unfold decideHide
  split_ifs <;> simp [SchedSame, targetTerminated, targetLaunchTimes]

/-- The show branch of the decision leaves the scheduler fields alone and
emits neither terminations nor launches. -/
theorem decideShow_sched (env : TargetEnv) (s : TargetSt) :
    SchedSame (decideShow env s).1 s
    ∧ targetTerminated (decideShow env s).2 = []
    ∧ targetLaunchTimes (decideShow env s).2 = [] := by
  unfold decideShow
  by_cases h1 : s.noticeVisible = false <;>
    by_cases h2 : s.lastInteractionLock = none ∨ s.lastInteractionLock ≠ some (!uiActiveB env) <;>
      by_cases h3 : s.pendingNoticeAfterSaver = true <;>
        simp [h1, h2, h3, SchedSame, targetTerminated, targetLaunchTimes]

/-- The decision half leaves the scheduler fields alone and emits neither
terminations nor launches. -/
theorem noticeDecision_sched (env : TargetEnv) (s : TargetSt) :
    SchedSame (noticeDecision env s).1 s
    ∧ targetTerminated (noticeDecision env s).2 = []
    ∧ targetLaunchTimes (noticeDecision env s).2 = [] := by
  unfold noticeDecision
  dsimp only
  split_ifs
  · exact decideUiActive_sched s
  · exact decideHide_sched s
  · exact decideShow_sched env s
  · exact decideHide_sched s

/-- The whole notice-coordinator stage leaves the scheduler fields alone and
emits neither terminations nor launches. -/
theorem targetNoticeStep_sched (env : TargetEnv) (s : TargetSt) :
    SchedSame (targetNoticeStep env s).1 s
    ∧ targetTerminated (targetNoticeStep env s).2 = []
    ∧ targetLaunchTimes (targetNoticeStep env s).2 = [] := by
  unfold targetNoticeStep
  obtain ⟨h1, h2, h3⟩ := noticeDecision_sched env (noticeHousekeeping env s)
  exact ⟨schedSame_trans h1 (noticeHousekeeping_ro env s).1, h2, h3⟩

/-- Without an owned handle the target config stage only records the new
signature. -/
theorem targetConfigStage_procNone (env : TargetEnv) (s : TargetSt) (h : s.proc = none) :
    targetConfigStage env s
      = ({ s with lastConfigSignature := some (targetConfigSignature env.cfg) }, []) := by
  unfold targetConfigStage
  cases hs : s.lastConfigSignature with
  | none => simp
  | some prev =>
    by_cases he : targetConfigSignature env.cfg = prev
    · subst he
      simp only [if_pos rfl]
      cases s
      simp_all
    · simp [he, h]

/-- Under an unchanged signature the target config stage is a no-op. -/
theorem targetConfigStage_fixedSig (env : TargetEnv) (s : TargetSt)
    (h : s.lastConfigSignature = some (targetConfigSignature env.cfg)) :
    targetConfigStage env s = (s, []) := by
  unfold targetConfigStage
  rw [h]
  simp

/-- Without a canonical pid the watchdog does nothing. -/
theorem targetWatchdog_noPid (env : TargetEnv) (s : TargetSt)
    (h : targetCurrentPid env s = none) :
    targetWatchdog env s = (s, []) := by
  unfold targetWatchdog
  rw [h]

/-- The watchdog never touches the launch schedule, the signature, the once
flag or the notice window state, and emits only terminations. -/
theorem targetWatchdog_frame (env : TargetEnv) (s : TargetSt) :
    (targetWatchdog env s).1.lastLaunch = s.lastLaunch
    ∧ (targetWatchdog env s).1.pendingLaunchAt = s.pendingLaunchAt
    ∧ (targetWatchdog env s).1.lastConfigSignature = s.lastConfigSignature
    ∧ (targetWatchdog env s).1.onceLaunched = s.onceLaunched
    ∧ (targetWatchdog env s).1.noticeVisible = s.noticeVisible
    ∧ (targetWatchdog env s).1.noticeLocked = s.noticeLocked
    ∧ (targetWatchdog env s).1.lastInteractionLock = s.lastInteractionLock
    ∧ targetLaunchTimes (targetWatchdog env s).2 = []
    ∧ targetLockSets (targetWatchdog env s).2 = [] := by
  unfold targetWatchdog targetStopProc
  repeat' split
  all_goals simp_all [targetLaunchTimes, targetLockSets]

/-- The `(now, lastLaunchBefore)` stamps of the launcher invocations (pwa or
chrome) among the recorded audio events. -/
def audioLaunchTimes (evs : List AudioEv) : List (ℤ × ℤ) :=
  evs.filterMap fun e =>
    match e with
    | AudioEv.launchPwa n l => some (n, l)
    | AudioEv.launchChrome n l => some (n, l)
    | _ => none

/-- Without an owned handle the audio config stage only records the new
signature. -/
theorem audioConfigStage_procNone (env : AudioEnv) (s : AudioSt) (h : s.proc = none) :
    audioConfigStage env s
      = ({ s with lastConfigSignature := some (audioConfigSignature env.cfg) }, []) := by
  unfold audioConfigStage
  cases hs : s.lastConfigSignature with
  | none => simp
  | some prev =>
    by_cases he : audioConfigSignature env.cfg = prev
    · subst he
      simp only [if_pos rfl]
      cases s
      simp_all
    · simp [he, h]

/-- Under an unchanged signature the audio config stage is a no-op. -/
theorem audioConfigStage_fixedSig (env : AudioEnv) (s : AudioSt)
    (h : s.lastConfigSignature = some (audioConfigSignature env.cfg)) :
    audioConfigStage env s = (s, []) := by
  unfold audioConfigStage
  rw [h]
  simp

/-- The launch attempt terminates nothing, and every launcher invocation it
records is stamped `(env.now, lastBefore)`. -/
theorem audioLaunchNow_spec (env : AudioEnv) (lastBefore : ℤ) :
    audioTerminated (audioLaunchNow env lastBefore).2 = []
    ∧ audioLaunchTimes (audioLaunchNow env lastBefore).2
        = List.replicate (audioLaunchNow env lastBefore).2.length (env.now, lastBefore) := by
  unfold audioLaunchNow
  repeat' split
  all_goals simp [audioTerminated, audioLaunchTimes, List.replicate]

/-- The minimize/restore scheduling leaves the scheduler fields alone. -/
theorem audioMinSchedule_frame (env : AudioEnv) (s : AudioSt) :
    (audioMinSchedule env s).lastLaunch = s.lastLaunch
    ∧ (audioMinSchedule env s).pendingLaunchAt = s.pendingLaunchAt
    ∧ (audioMinSchedule env s).lastConfigSignature = s.lastConfigSignature
    ∧ (audioMinSchedule env s).onceLaunched = s.onceLaunched
    ∧ (audioMinSchedule env s).proc = s.proc
    ∧ (audioMinSchedule env s).externalPid = s.externalPid := by
  unfold audioMinSchedule
  repeat' split
  all_goals simp

/-- The audio pending-launch block terminates nothing. -/
theorem audioPendingStep_noTerm (env : AudioEnv) (s : AudioSt) :
    audioTerminated (audioPendingStep env s).2 = [] := by
  unfold audioPendingStep
  cases s.pendingLaunchAt with
  | none => simp [audioTerminated]
  | some p =>
    by_cases h : p ≤ env.now
    · dsimp only
      rw [if_pos h]
      exact (audioLaunchNow_spec env s.lastLaunch).1
    · simp [h, audioTerminated]

/-- The audio restore block terminates nothing and leaves the scheduler
fields alone. -/
theorem audioRestoreStep_frame (env : AudioEnv) (s : AudioSt) :
    (audioRestoreStep env s).1.lastLaunch = s.lastLaunch
    ∧ (audioRestoreStep env s).1.pendingLaunchAt = s.pendingLaunchAt
    ∧ (audioRestoreStep env s).1.lastConfigSignature = s.lastConfigSignature
    ∧ (audioRestoreStep env s).1.onceLaunched = s.onceLaunched
    ∧ (audioRestoreStep env s).1.proc = s.proc
    ∧ (audioRestoreStep env s).1.externalPid = s.externalPid
    ∧ audioTerminated (audioRestoreStep env s).2 = []
    ∧ audioLaunchTimes (audioRestoreStep env s).2 = [] := by
  unfold audioRestoreStep
  cases s.pendingRestorePid <;> repeat' split
  all_goals first
    | (simp_all [audioTerminated, audioLaunchTimes]; done)
    | (simp [audioTerminated, audioLaunchTimes]; done)
    | rfl
    | (cases s.externalPid <;> split_ifs <;> simp_all [audioTerminated, audioLaunchTimes])
    | (cases s.externalPid <;> simp_all [audioTerminated, audioLaunchTimes])
    | simp_all [audioTerminated, audioLaunchTimes]

/-- The second audio restore block terminates nothing and leaves the
scheduler fields alone. -/
theorem audioRestoreAgainStep_frame (env : AudioEnv) (s : AudioSt) :
    (audioRestoreAgainStep env s).1.lastLaunch = s.lastLaunch
    ∧ (audioRestoreAgainStep env s).1.pendingLaunchAt = s.pendingLaunchAt
    ∧ (audioRestoreAgainStep env s).1.lastConfigSignature = s.lastConfigSignature
    ∧ (audioRestoreAgainStep env s).1.onceLaunched = s.onceLaunched
    ∧ (audioRestoreAgainStep env s).1.proc = s.proc
    ∧ (audioRestoreAgainStep env s).1.externalPid = s.externalPid
    ∧ audioTerminated (audioRestoreAgainStep env s).2 = []
    ∧ audioLaunchTimes (audioRestoreAgainStep env s).2 = [] := by
  unfold audioRestoreAgainStep
  cases s.pendingRestoreAgainAt <;> repeat' split
  all_goals first
    | (simp_all [audioTerminated, audioLaunchTimes]; done)
    | (simp [audioTerminated, audioLaunchTimes]; done)
    | rfl
    | (cases s.externalPid <;> split_ifs <;> simp_all [audioTerminated, audioLaunchTimes])
    | (cases s.externalPid <;> simp_all [audioTerminated, audioLaunchTimes])
    | simp_all [audioTerminated, audioLaunchTimes]

/-- The audio minimize block terminates nothing and leaves the scheduler
fields alone. -/
theorem audioMinimizeStep_frame (env : AudioEnv) (s : AudioSt) :
    (audioMinimizeStep env s).1.lastLaunch = s.lastLaunch
    ∧ (audioMinimizeStep env s).1.pendingLaunchAt = s.pendingLaunchAt
    ∧ (audioMinimizeStep env s).1.lastConfigSignature = s.lastConfigSignature
    ∧ (audioMinimizeStep env s).1.onceLaunched = s.onceLaunched
    ∧ (audioMinimizeStep env s).1.proc = s.proc
    ∧ (audioMinimizeStep env s).1.externalPid = s.externalPid
    ∧ audioTerminated (audioMinimizeStep env s).2 = []
    ∧ audioLaunchTimes (audioMinimizeStep env s).2 = [] := by
  unfold audioMinimizeStep
  cases s.pendingMinimizePid with
  | none => simp [audioTerminated, audioLaunchTimes]
  | some mp =>
    by_cases hmode : env.cfg.audioWindowMode = "minimized"
    · by_cases htime : s.pendingMinimizeAt.getD 0 ≤ env.now
      · dsimp only
        rw [if_pos hmode, if_pos htime]
        repeat' split
        all_goals simp [audioTerminated, audioLaunchTimes]
      · simp [hmode, htime, audioTerminated, audioLaunchTimes]
    · simp [hmode, audioTerminated, audioLaunchTimes]

/-- `targetTerminated` distributes over concatenation. -/
theorem targetTerminated_append (a b : List TargetEv) :
    targetTerminated (a ++ b) = targetTerminated a ++ targetTerminated b := by
  simp [targetTerminated]

/-- `targetLaunchTimes` distributes over concatenation. -/
theorem targetLaunchTimes_append (a b : List TargetEv) :
    targetLaunchTimes (a ++ b) = targetLaunchTimes a ++ targetLaunchTimes b := by
  simp [targetLaunchTimes]

/-- `targetLockSets` distributes over concatenation. -/
theorem targetLockSets_append (a b : List TargetEv) :
    targetLockSets (a ++ b) = targetLockSets a ++ targetLockSets b := by
  simp [targetLockSets]

/-- `audioTerminated` distributes over concatenation. -/
theorem audioTerminated_append (a b : List AudioEv) :
    audioTerminated (a ++ b) = audioTerminated a ++ audioTerminated b := by
  simp [audioTerminated]

/-- `audioLaunchTimes` distributes over concatenation. -/
theorem audioLaunchTimes_append (a b : List AudioEv) :
    audioLaunchTimes (a ++ b) = audioLaunchTimes a ++ audioLaunchTimes b := by
  simp [audioLaunchTimes]

/-- The terminations of a pure termination burst are exactly its pids. -/
theorem audioTerminated_map (l : List ℕ) :
    audioTerminated (l.map AudioEv.terminate) = l := by
  induction l with
  | nil => rfl
  | cons p tl ih => simp [audioTerminated] at ih ⊢; exact ih

/-- The target pending-launch block neither terminates processes nor touches
the adopted pid, the signature, or the notice window state; every launcher
invocation it records is stamped `(env.now, s.lastLaunch)` and fires only
when a due `pendingLaunchAt` exists. -/
theorem targetLaunchStep_frame (env : TargetEnv) (s : TargetSt) :
    (targetLaunchStep env s).1.externalPid = s.externalPid
    ∧ (targetLaunchStep env s).1.lastConfigSignature = s.lastConfigSignature
    ∧ (targetLaunchStep env s).1.noticeVisible = s.noticeVisible
    ∧ (targetLaunchStep env s).1.noticeLocked = s.noticeLocked
    ∧ (targetLaunchStep env s).1.lastInteractionLock = s.lastInteractionLock
    ∧ targetTerminated (targetLaunchStep env s).2 = []
    ∧ targetLockSets (targetLaunchStep env s).2 = [] := by
  unfold targetLaunchStep
  repeat' split
  all_goals simp [targetTerminated, targetLockSets]

/-- The target minimize block neither terminates nor launches anything and
leaves the scheduler and notice fields alone. -/
theorem targetMinimizeStep_frame (env : TargetEnv) (s : TargetSt) :
    (targetMinimizeStep env s).1.externalPid = s.externalPid
    ∧ (targetMinimizeStep env s).1.lastConfigSignature = s.lastConfigSignature
    ∧ (targetMinimizeStep env s).1.lastLaunch = s.lastLaunch
    ∧ (targetMinimizeStep env s).1.pendingLaunchAt = s.pendingLaunchAt
    ∧ (targetMinimizeStep env s).1.onceLaunched = s.onceLaunched
    ∧ (targetMinimizeStep env s).1.proc = s.proc
    ∧ (targetMinimizeStep env s).1.noticeVisible = s.noticeVisible
    ∧ (targetMinimizeStep env s).1.noticeLocked = s.noticeLocked
    ∧ (targetMinimizeStep env s).1.lastInteractionLock = s.lastInteractionLock
    ∧ targetTerminated (targetMinimizeStep env s).2 = []
    ∧ targetLaunchTimes (targetMinimizeStep env s).2 = []
    ∧ targetLockSets (targetMinimizeStep env s).2 = [] := by
  unfold targetMinimizeStep
  repeat' split
  all_goals simp [targetTerminated, targetLaunchTimes, targetLockSets]

/-! ## Claims about scan deduplication (C1, C3) -/

/-- `targetTerminated` of no events. -/
theorem targetTerminated_nil : targetTerminated [] = [] := rfl

/-- `targetLaunchTimes` of no events. -/
theorem targetLaunchTimes_nil : targetLaunchTimes [] = [] := rfl

/-- `targetLockSets` of no events. -/
theorem targetLockSets_nil : targetLockSets [] = [] := rfl

/-- `audioTerminated` of no events. -/
theorem audioTerminated_nil : audioTerminated [] = [] := rfl

/-- `audioLaunchTimes` of no events. -/
theorem audioLaunchTimes_nil : audioLaunchTimes [] = [] := rfl

/-- A target tick that starts with no canonical process (neither owned nor
adopted) terminates nothing, and adopts exactly the first visible
profile-scan match (if any) as the external canonical pid. -/
theorem target_scan_no_terminate (env : TargetEnv) (s : TargetSt)
    (hproc : s.proc = none) (hext : s.externalPid = none)
    (hen : env.cfg.targetEnabled = true) :
    targetTerminated (targetTick env s).2 = []
    ∧ (targetTick env s).1.externalPid = (env.scanPids.filter (hasWin env)).head? := by
  have hcfg := targetConfigStage_procNone env s hproc
  have hnotice := targetNoticeStep_sched env
    ({ s with lastConfigSignature := some (targetConfigSignature env.cfg) })
  set s1 : TargetSt := { s with lastConfigSignature := some (targetConfigSignature env.cfg) }
    with hs1
  obtain ⟨hSS, hT2, hL2⟩ := hnotice
  have h2p : (targetNoticeStep env s1).1.proc = none := by
    rw [hSS.1, hs1, hproc]
  have h2e : (targetNoticeStep env s1).1.externalPid = none := by
    rw [hSS.2.1, hs1, hext]
  have hcur : targetCurrentPid env (targetNoticeStep env s1).1 = none := by
    unfold targetCurrentPid
    rw [h2p, h2e]
  have hwd := targetWatchdog_noPid env (targetNoticeStep env s1).1 hcur
  unfold targetTick
  rw [hcfg]
  dsimp only
  rw [if_neg (by simp [hen])]
  rw [hwd]
  dsimp only
  set s2 := (targetNoticeStep env s1).1 with hs2
  unfold targetSched
  dsimp only
  rw [if_pos (Or.inl h2p)]
  cases hf : env.scanPids.filter (hasWin env) with
  | cons pid0 tl =>
    refine ⟨?_, rfl⟩
    simp only [targetTerminated_append, targetTerminated_nil, hT2, List.append_nil,
      List.nil_append]
  | nil =>
    by_cases honce : env.cfg.targetRepeatMode = "once" ∧ s2.onceLaunched = true
    · rw [if_pos honce]
      refine ⟨?_, h2e⟩
      simp only [targetTerminated_append, targetTerminated_nil, hT2, List.append_nil,
        List.nil_append]
    · rw [if_neg honce]
      by_cases hsched : env.cfg.targetRelaunchCooldownSec ≤ env.now - s2.lastLaunch
          ∧ s2.pendingLaunchAt = none
      · rw [if_pos hsched]
        dsimp only
        obtain ⟨hl1, _, _, _, _, hl6, hl7⟩ := targetLaunchStep_frame env
          { s2 with pendingLaunchAt := some (env.now + env.cfg.targetStartDelaySec) }
        obtain ⟨hm1, _, _, _, _, _, _, _, _, hm10, hm11, _⟩ := targetMinimizeStep_frame env
          (targetLaunchStep env
            { s2 with pendingLaunchAt := some (env.now + env.cfg.targetStartDelaySec) }).1
        constructor
        · simp only [targetTerminated_append, targetTerminated_nil, hT2, hl6, hm10,
            List.append_nil, List.nil_append]
        · rw [hm1, hl1]
          exact h2e
      · rw [if_neg hsched]
        dsimp only
        obtain ⟨hl1, _, _, _, _, hl6, hl7⟩ := targetLaunchStep_frame env s2
        obtain ⟨hm1, _, _, _, _, _, _, _, _, hm10, hm11, _⟩ :=
          targetMinimizeStep_frame env (targetLaunchStep env s2).1
        constructor
        · simp only [targetTerminated_append, targetTerminated_nil, hT2, hl6, hm10,
            List.append_nil, List.nil_append]
        · rw [hm1, hl1]
          exact h2e

/-- A nodup scan list, deduplicated by terminating every pid other than
`keep`, retains at most one element. -/
theorem dedup_survivors_le_one (l : List ℕ) (keep : ℕ) (hnodup : l.Nodup) :
    (l.filter (fun p => !((l.filter (fun q => decide (q ≠ keep))).contains p))).length ≤ 1 := by
  have hc : ∀ p ∈ l,
      (!((l.filter fun q => decide (q ≠ keep)).contains p)) = (p == keep) := by
    intro p hpmem
    by_cases hpk : p = keep
    · subst hpk
      simp
    · simp [hpk, hpmem]
  rw [List.filter_congr hc]
  have hcount := List.nodup_iff_count_le_one.mp hnodup keep
  calc (l.filter (fun p => p == keep)).length
      = l.countP (fun p => p == keep) := (List.countP_eq_length_filter _ _).symm
    _ = l.count keep := rfl
    _ ≤ 1 := hcount

/-- An audio tick in the chrome launch path, starting with no owned handle,
leaves at most one surviving process among the profile-scan matches. -/
theorem audio_scan_dedup (env : AudioEnv) (s : AudioSt)
    (hproc : s.proc = none) (hen : env.cfg.audioEnabled = true)
    (hpwa : ¬audioPwaMode env.cfg) (hnodup : env.profilePids.Nodup) :
    (audioScanSurvivors env (audioTick env s).2).length ≤ 1 := by
  have hcfg := audioConfigStage_procNone env s hproc
  set s1 : AudioSt := { s with lastConfigSignature := some (audioConfigSignature env.cfg) }
    with hs1
  unfold audioTick
  rw [hcfg]
  dsimp only
  rw [if_neg (by simp [hen])]
  rw [if_pos (Or.inl (show s1.proc = none from hproc))]
  rw [if_neg hpwa]
  cases hp : env.profilePids with
  | nil =>
    unfold audioScanSurvivors
    simp [hp]
  | cons e0 tl =>
    cases tl with
    | nil =>
      unfold audioScanSurvivors
      simp [hp, audioTerminated_nil]
    | cons e1 tl2 =>
      dsimp only
      unfold audioScanSurvivors
      rw [hp]
      rw [List.nil_append, audioTerminated_map]
      exact dedup_survivors_le_one (e0 :: e1 :: tl2) _ (hp ▸ hnodup)

/-- C1 counterexample environment: the target-profile scan finds two
processes, 1 and 2, both owning visible windows. -/
def envC1 : TargetEnv :=
  { cfg := cfgTW, now := 1000, procAlive := false, scanPids := [1, 2],
    winPids := [1, 2], launchResult := none, uiActiveCount := 0,
    saverActiveVal := 0, saverTriggerAt := 0, noticeDismissedAt := 0 }

/-- Counterexample to C1 as stated: a target tick whose scan finds two
processes matching the role identity (profile directory) adopts the first and
terminates nothing, so the scan leaves two surviving matches — the target
worker has no dedup-terminate step. -/
theorem at_most_one_instance_counterexample :
    (targetTick envC1 (targetInit cfgTW 0)).1.externalPid = some 1
    ∧ targetTerminated (targetTick envC1 (targetInit cfgTW 0)).2 = []
    ∧ targetScanSurvivors envC1 (targetTick envC1 (targetInit cfgTW 0)).2 = [1, 2] := by
  decide

/-- C3 counterexample environment: two target-profile processes, pid 1 with a
visible window and pid 2 without. -/
def envC3 : TargetEnv := { envC1 with winPids := [1] }

/-- Counterexample to C3 as stated: in the cited dedup scenario (two
processes on one role's profile directory, one visible, one windowless) the
target worker adopts the visible one but terminates nothing, so the
windowless duplicate also remains after the tick. -/
theorem dedup_example_counterexample :
    (targetTick envC3 (targetInit cfgTW 0)).1.externalPid = some 1
    ∧ targetTerminated (targetTick envC3 (targetInit cfgTW 0)).2 = []
    ∧ targetScanSurvivors envC3 (targetTick envC3 (targetInit cfgTW 0)).2 = [1, 2] := by
  decide

/-- An audio tick that finds two processes `a` (with a visible window) and
`b` (without) on the audio profile: `b` is terminated, `a` survives and is
adopted. -/
theorem audio_dedup_pair (env : AudioEnv) (s : AudioSt) (a b : ℕ)
    (hproc : s.proc = none) (hen : env.cfg.audioEnabled = true)
    (hpwa : ¬audioPwaMode env.cfg) (hab : a ≠ b)
    (hwa : hasWinA env a = true) (hwb : hasWinA env b = false)
    (hlist : env.profilePids = [a, b] ∨ env.profilePids = [b, a]) :
    (audioTick env s).1.externalPid = some a
    ∧ audioTerminated (audioTick env s).2 = [b]
    ∧ audioScanSurvivors env (audioTick env s).2 = [a] := by
  have hcfg := audioConfigStage_procNone env s hproc
  set s1 : AudioSt := { s with lastConfigSignature := some (audioConfigSignature env.cfg) }
    with hs1
  unfold audioTick
  rw [hcfg]
  dsimp only
  rw [if_neg (by simp [hen])]
  rw [if_pos (Or.inl (show s1.proc = none from hproc))]
  rw [if_neg hpwa]
  unfold audioScanSurvivors audioAdopt
  have hba : b ≠ a := fun hcontr => hab hcontr.symm
  cases hlist with
  | inl h =>
    rw [h]
    dsimp only
    simp [hwa, hwb, hab, hba, audioTerminated, List.filter]
  | inr h =>
    rw [h]
    dsimp only
    simp [hwa, hwb, hab, hba, audioTerminated, List.filter]

/-- A target tick that finds two processes `a` (with a visible window) and
`b` (without) on the target profile: `a` is adopted but nothing is
terminated. -/
theorem target_dedup_pair (env : TargetEnv) (s : TargetSt) (a b : ℕ)
    (hproc : s.proc = none) (hext : s.externalPid = none)
    (hen : env.cfg.targetEnabled = true)
    (hwa : hasWin env a = true) (hwb : hasWin env b = false)
    (hlist : env.scanPids = [a, b] ∨ env.scanPids = [b, a]) :
    targetTerminated (targetTick env s).2 = []
    ∧ (targetTick env s).1.externalPid = some a := by
  obtain ⟨h1, h2⟩ := target_scan_no_terminate env s hproc hext hen
  refine ⟨h1, ?_⟩
  rw [h2]
  cases hlist with
  | inl h => rw [h]; simp [hwa, hwb, List.filter]
  | inr h => rw [h]; simp [hwa, hwb, List.filter]

/-- C1 (amended): the at-most-one-survivor property of scans holds for the
Audio role's chrome launch path — any audio-profile scan leaves at most one
surviving match, which is adopted as the single canonical handle — but not
for the Target role: the target worker's scan adopts the first visible
profile match as its unique canonical pid and never terminates duplicates,
so a target scan can leave more than one surviving process matching the role
identity. -/
theorem at_most_one_instance_amended :
    (∀ (env : AudioEnv) (s : AudioSt),
        s.proc = none → env.cfg.audioEnabled = true → ¬audioPwaMode env.cfg →
        env.profilePids.Nodup →
        (audioScanSurvivors env (audioTick env s).2).length ≤ 1)
    ∧ (∀ (env : TargetEnv) (s : TargetSt),
        s.proc = none → s.externalPid = none → env.cfg.targetEnabled = true →
        targetTerminated (targetTick env s).2 = []
        ∧ (targetTick env s).1.externalPid = (env.scanPids.filter (hasWin env)).head?) :=
  ⟨audio_scan_dedup, target_scan_no_terminate⟩

/-- Audio configuration (chrome launch path) used by witnesses. -/
def cfgAW : AudioCfg :=
  { audioUrls := ["u"], audioWindowMode := "normal", audioStartDelaySec := 0,
    audioRelaunchCooldownSec := 100, audioEnabled := true,
    audioRepeatMode := "repeat", audioLaunchMode := "chrome",
    audioPwaAppId := "", audioMinimizeDelaySec := 30 }

/-- Audio witness environment: profile scan finds pid 1 (no window) and
pid 2 (visible window). -/
def envAW : AudioEnv :=
  { cfg := cfgAW, now := 1000, procAlive := false, appIdPids := [],
    profilePids := [1, 2], winPids := [2], pwaLaunchResult := none,
    chromeLaunchResult := some 9 }

/-- Witness for C1 (amended): the audio scan of `envAW` leaves at most one
survivor, and the target scan of `envC1` terminates nothing while adopting
the first visible match. -/
theorem at_most_one_instance_amended_witness :
    (audioScanSurvivors envAW (audioTick envAW audioInit).2).length ≤ 1
    ∧ (targetTerminated (targetTick envC1 (targetInit cfgTW 0)).2 = []
      ∧ (targetTick envC1 (targetInit cfgTW 0)).1.externalPid
          = (envC1.scanPids.filter (hasWin envC1)).head?) :=
  ⟨at_most_one_instance_amended.1 envAW audioInit rfl rfl (by decide) (by decide),
   at_most_one_instance_amended.2 envC1 (targetInit cfgTW 0) rfl rfl rfl⟩

/-- C3 (amended): in the cited scenario — two processes on one role's
profile directory, one with a visible window and one without — the Audio
role's chrome launch path behaves as claimed: the windowless duplicate is
terminated, the visible process is the only scan survivor and is adopted as
canonical.  The Target role adopts the visible process as canonical but
terminates nothing, so its windowless duplicate also remains after the
tick. -/
theorem dedup_example_amended :
    (∀ (env : AudioEnv) (s : AudioSt) (a b : ℕ),
        s.proc = none → env.cfg.audioEnabled = true → ¬audioPwaMode env.cfg →
        a ≠ b → hasWinA env a = true → hasWinA env b = false →
        (env.profilePids = [a, b] ∨ env.profilePids = [b, a]) →
        (audioTick env s).1.externalPid = some a
        ∧ audioTerminated (audioTick env s).2 = [b]
        ∧ audioScanSurvivors env (audioTick env s).2 = [a])
    ∧ (∀ (env : TargetEnv) (s : TargetSt) (a b : ℕ),
        s.proc = none → s.externalPid = none → env.cfg.targetEnabled = true →
        hasWin env a = true → hasWin env b = false →
        (env.scanPids = [a, b] ∨ env.scanPids = [b, a]) →
        targetTerminated (targetTick env s).2 = []
        ∧ (targetTick env s).1.externalPid = some a) :=
  ⟨fun env s a b h1 h2 h3 h4 h5 h6 h7 => audio_dedup_pair env s a b h1 h2 h3 h4 h5 h6 h7,
   fun env s a b h1 h2 h3 h4 h5 h6 => target_dedup_pair env s a b h1 h2 h3 h4 h5 h6⟩

/-- Witness for C3 (amended): on `envAW` (pids 1 windowless, 2 visible) the
audio tick adopts 2 and terminates 1; on `envC3` (pid 1 visible, 2
windowless) the target tick adopts 1 and terminates nothing. -/
theorem dedup_example_amended_witness :
    ((audioTick envAW audioInit).1.externalPid = some 2
      ∧ audioTerminated (audioTick envAW audioInit).2 = [1]
      ∧ audioScanSurvivors envAW (audioTick envAW audioInit).2 = [2])
    ∧ (targetTerminated (targetTick envC3 (targetInit cfgTW 0)).2 = []
      ∧ (targetTick envC3 (targetInit cfgTW 0)).1.externalPid = some 1) :=
  ⟨dedup_example_amended.1 envAW audioInit 2 1 rfl rfl (by decide) (by decide)
      (by decide) (by decide) (Or.inr rfl),
   dedup_example_amended.2 envC3 (targetInit cfgTW 0) 1 2 rfl rfl rfl
      (by decide) (by decide) (Or.inl rfl)⟩

/-! ## Cooldown monotonicity (C2) and launch-failure retry (C9) -/

/-- `TargetWorker._stop_proc` leaves the launch schedule, the signature and
the notice window state alone; it emits only terminations. -/
theorem targetStopProc_spec (env : TargetEnv) (s : TargetSt) :
    (targetStopProc env s).1.lastLaunch = s.lastLaunch
    ∧ (targetStopProc env s).1.pendingLaunchAt = s.pendingLaunchAt
    ∧ (targetStopProc env s).1.lastConfigSignature = s.lastConfigSignature
    ∧ (targetStopProc env s).1.noticeVisible = s.noticeVisible
    ∧ (targetStopProc env s).1.noticeLocked = s.noticeLocked
    ∧ (targetStopProc env s).1.lastInteractionLock = s.lastInteractionLock
    ∧ targetLaunchTimes (targetStopProc env s).2 = []
    ∧ targetLockSets (targetStopProc env s).2 = [] := by
  unfold targetStopProc
  repeat' split
  all_goals simp [targetLaunchTimes, targetLockSets]

/-- A target config stage that has not yet recorded a signature only records
it. -/
theorem targetConfigStage_noSig (env : TargetEnv) (s : TargetSt)
    (h : s.lastConfigSignature = none) :
    targetConfigStage env s
      = ({ s with lastConfigSignature := some (targetConfigSignature env.cfg) }, []) := by
  unfold targetConfigStage
  rw [h]

/-- The target pending-launch block either leaves the schedule untouched
without invoking the launcher, or fires exactly one launcher invocation
stamped `(env.now, s.lastLaunch)` for a due `pendingLaunchAt`. -/
theorem targetLaunchStep_spec (env : TargetEnv) (s : TargetSt) :
    (targetLaunchStep env s).1.lastConfigSignature = s.lastConfigSignature
    ∧ ((targetLaunchStep env s).1.lastLaunch = s.lastLaunch
        ∧ (targetLaunchStep env s).1.pendingLaunchAt = s.pendingLaunchAt
        ∧ targetLaunchTimes (targetLaunchStep env s).2 = []
      ∨ (∃ p, s.pendingLaunchAt = some p ∧ p ≤ env.now
          ∧ (targetLaunchStep env s).1.lastLaunch = env.now
          ∧ (targetLaunchStep env s).1.pendingLaunchAt = none
          ∧ targetLaunchTimes (targetLaunchStep env s).2 = [(env.now, s.lastLaunch)])) := by
  unfold targetLaunchStep
  cases hp : s.pendingLaunchAt with
  | none => simp [targetLaunchTimes, hp]
  | some p =>
    dsimp only
    by_cases ht : p ≤ env.now
    · rw [if_pos ht]
      refine ⟨by split <;> rfl, Or.inr ⟨p, rfl, ht, ?_, ?_, ?_⟩⟩ <;>
        split <;> simp [targetLaunchTimes]
    · rw [if_neg ht]
      simp [targetLaunchTimes, hp]

/-- `AudioWorker._stop_proc` clears the pending launch, keeps `lastLaunch`
and the signature, and emits only terminations. -/
theorem audioStopProc_spec (env : AudioEnv) (s : AudioSt) :
    (audioStopProc env s).1.lastLaunch = s.lastLaunch
    ∧ (audioStopProc env s).1.pendingLaunchAt = none
    ∧ (audioStopProc env s).1.lastConfigSignature = s.lastConfigSignature
    ∧ audioLaunchTimes (audioStopProc env s).2 = [] := by
  unfold audioStopProc
  repeat' split
  all_goals simp [audioLaunchTimes]

/-- An audio config stage that has not yet recorded a signature only records
it. -/
theorem audioConfigStage_noSig (env : AudioEnv) (s : AudioSt)
    (h : s.lastConfigSignature = none) :
    audioConfigStage env s
      = ({ s with lastConfigSignature := some (audioConfigSignature env.cfg) }, []) := by
  unfold audioConfigStage
  rw [h]

/-- The audio pending block either leaves the schedule untouched without
invoking any launcher, or fires launcher invocations all stamped
`(env.now, s.lastLaunch)` for a due `pendingLaunchAt`. -/
theorem audioPendingStep_spec (env : AudioEnv) (s : AudioSt) :
    (audioPendingStep env s).1.lastConfigSignature = s.lastConfigSignature
    ∧ ((audioPendingStep env s).1.lastLaunch = s.lastLaunch
        ∧ (audioPendingStep env s).1.pendingLaunchAt = s.pendingLaunchAt
        ∧ audioLaunchTimes (audioPendingStep env s).2 = []
      ∨ (∃ p, s.pendingLaunchAt = some p ∧ p ≤ env.now
          ∧ (audioPendingStep env s).1.lastLaunch = env.now
          ∧ (audioPendingStep env s).1.pendingLaunchAt = none
          ∧ ∀ nl ∈ audioLaunchTimes (audioPendingStep env s).2,
              nl = (env.now, s.lastLaunch))) := by
  unfold audioPendingStep
  cases hp : s.pendingLaunchAt with
  | none => simp [audioLaunchTimes, hp]
  | some p =>
    dsimp only
    by_cases ht : p ≤ env.now
    · rw [if_pos ht]
      refine ⟨?_, Or.inr ⟨p, rfl, ht, ?_, ?_, ?_⟩⟩
      · rw [(audioMinSchedule_frame env _).2.2.1]
      · rw [(audioMinSchedule_frame env _).1]
      · rw [(audioMinSchedule_frame env _).2.1]
      · intro nl hnl
        have := (audioLaunchNow_spec env s.lastLaunch).2
        rw [this] at hnl
        exact List.eq_of_mem_replicate hnl
    · rw [if_neg ht]
      refine ⟨?_, Or.inl ⟨?_, ?_, rfl⟩⟩
      · rw [(audioMinSchedule_frame env _).2.2.1]
      · rw [(audioMinSchedule_frame env _).1]
      · rw [(audioMinSchedule_frame env _).2.1, hp]

/-- The launch-schedule invariant of the target worker under a fixed
configuration: the recorded signature (if any) is the current one, and any
pending launch time honours the cooldown relative to `lastLaunch`. -/
def TargetSchedInv (cfg : TargetCfg) (s : TargetSt) : Prop :=
  (s.lastConfigSignature = none
    ∨ s.lastConfigSignature = some (targetConfigSignature cfg))
  ∧ ∀ p, s.pendingLaunchAt = some p →
      s.lastLaunch + cfg.targetRelaunchCooldownSec ≤ p

/-- Cooldown behaviour of the pending-launch and minimize blocks: under the
schedule invariant every launcher invocation they record respects the
cooldown, and the invariant is preserved. -/
theorem targetLaunchAndMin_cooldown (env : TargetEnv) (s4 : TargetSt)
    (hsig : s4.lastConfigSignature = some (targetConfigSignature env.cfg))
    (hpend : ∀ p, s4.pendingLaunchAt = some p →
        s4.lastLaunch + env.cfg.targetRelaunchCooldownSec ≤ p) :
    TargetSchedInv env.cfg (targetMinimizeStep env (targetLaunchStep env s4).1).1
    ∧ (∀ nl ∈ targetLaunchTimes
          ((targetLaunchStep env s4).2 ++ (targetMinimizeStep env (targetLaunchStep env s4).1).2),
        nl.1 = env.now ∧ nl.2 = s4.lastLaunch
        ∧ env.cfg.targetRelaunchCooldownSec ≤ nl.1 - nl.2)
    ∧ ((targetMinimizeStep env (targetLaunchStep env s4).1).1.lastLaunch = s4.lastLaunch
        ∨ (targetMinimizeStep env (targetLaunchStep env s4).1).1.lastLaunch = env.now) := by
  obtain ⟨hm1, hm2, hm3, hm4, hm5, hm6, hm7, hm8, hm9, hm10, hm11, hm12⟩ :=
    targetMinimizeStep_frame env (targetLaunchStep env s4).1
  obtain ⟨hlsig, hcase⟩ := targetLaunchStep_spec env s4
  rw [targetLaunchTimes_append, hm11, List.append_nil]
  cases hcase with
  | inl h =>
    obtain ⟨hll, hlp, hlt⟩ := h
    refine ⟨⟨Or.inr (by rw [hm2, hlsig, hsig]), ?_⟩, ?_, ?_⟩
    · intro p hp
      rw [hm4, hlp] at hp
      rw [hm3.trans hll]
      exact hpend p hp
    · intro nl hnl
      rw [hlt] at hnl
      exact absurd hnl (List.not_mem_nil nl)
    · exact Or.inl (hm3.trans hll)
  | inr h =>
    obtain ⟨p, hp, hple, hll, hlp, hlt⟩ := h
    have hineq : env.cfg.targetRelaunchCooldownSec ≤ env.now - s4.lastLaunch := by
      have := hpend p hp
      omega
    refine ⟨⟨Or.inr ?_, ?_⟩, ?_, ?_⟩
    · rw [hm2, hlsig, hsig]
    · intro q hq
      rw [hm4, hlp] at hq
      exact absurd hq (by simp)
    · intro nl hnl
      rw [hlt] at hnl
      rcases List.mem_singleton.mp hnl with rfl
      exact ⟨rfl, rfl, by omega⟩
    · exact Or.inr (hm3.trans hll)

/-- Master cooldown lemma for one target tick under a fixed configuration:
the schedule invariant is preserved, every launcher invocation is stamped
`(env.now, s.lastLaunch)` and respects the cooldown, and `lastLaunch` only
stays or advances to `env.now`. -/
theorem targetTick_cooldown (cfg : TargetCfg) (env : TargetEnv) (s : TargetSt)
    (hc : env.cfg = cfg) (hdelay : 0 ≤ cfg.targetStartDelaySec)
    (hinv : TargetSchedInv cfg s) :
    TargetSchedInv cfg (targetTick env s).1
    ∧ (∀ nl ∈ targetLaunchTimes (targetTick env s).2,
        nl.1 = env.now ∧ nl.2 = s.lastLaunch
        ∧ cfg.targetRelaunchCooldownSec ≤ nl.1 - nl.2)
    ∧ ((targetTick env s).1.lastLaunch = s.lastLaunch
        ∨ (targetTick env s).1.lastLaunch = env.now) := by
  cases hc
  obtain ⟨hsig, hpend⟩ := hinv
  have h1 : (targetConfigStage env s).1.lastConfigSignature
        = some (targetConfigSignature env.cfg)
      ∧ (targetConfigStage env s).1.pendingLaunchAt = s.pendingLaunchAt
      ∧ (targetConfigStage env s).1.lastLaunch = s.lastLaunch
      ∧ (targetConfigStage env s).2 = [] := by
    cases hsig with
    | inl h => rw [targetConfigStage_noSig env s h]; exact ⟨rfl, rfl, rfl, rfl⟩
    | inr h => rw [targetConfigStage_fixedSig env s h]; exact ⟨h, rfl, rfl, rfl⟩
  obtain ⟨h1sig, h1pend, h1last, h1ev⟩ := h1
  obtain ⟨hnSS, hnT, hnL⟩ := targetNoticeStep_sched env (targetConfigStage env s).1
  obtain ⟨_, _, _, _, _, hn6, hn7, hn8, _, _⟩ := hnSS
  unfold targetTick
  dsimp only
  rw [h1ev]
  by_cases hen : env.cfg.targetEnabled = false
  · rw [if_pos hen]
    obtain ⟨hsp1, hsp2, hsp3, _, _, _, hsp7, _⟩ :=
      targetStopProc_spec env (targetNoticeStep env (targetConfigStage env s).1).1
    refine ⟨⟨Or.inr (by rw [hsp3, hn8, h1sig]), by simp⟩, ?_, ?_⟩
    · intro nl hnl
      rw [List.nil_append, targetLaunchTimes_append, hnL, hsp7] at hnl
      exact absurd hnl (List.not_mem_nil nl)
    · exact Or.inl (by rw [hsp1, hn6, h1last])
  · rw [if_neg hen]
    obtain ⟨hw1, hw2, hw3, hw4, _, _, _, hw8, hw9⟩ :=
      targetWatchdog_frame env (targetNoticeStep env (targetConfigStage env s).1).1
    set s3 := (targetWatchdog env (targetNoticeStep env (targetConfigStage env s).1).1).1
      with hs3
    have h3sig : s3.lastConfigSignature = some (targetConfigSignature env.cfg) := by
      rw [hs3, hw3, hn8, h1sig]
    have h3pend : s3.pendingLaunchAt = s.pendingLaunchAt := by rw [hs3, hw2, hn7, h1pend]
    have h3last : s3.lastLaunch = s.lastLaunch := by rw [hs3, hw1, hn6, h1last]
    have h3inv : ∀ p, s3.pendingLaunchAt = some p →
        s3.lastLaunch + env.cfg.targetRelaunchCooldownSec ≤ p := by
      intro p hp
      rw [h3pend] at hp
      rw [h3last]
      exact hpend p hp
    have hevpre : ∀ (tail : List TargetEv),
        targetLaunchTimes ([] ++ (targetNoticeStep env (targetConfigStage env s).1).2
          ++ (targetWatchdog env (targetNoticeStep env (targetConfigStage env s).1).1).2
          ++ tail) = targetLaunchTimes tail := by
      intro tail
      rw [List.nil_append, targetLaunchTimes_append, targetLaunchTimes_append, hnL, hw8]
      simp
    unfold targetSched
    dsimp only
    by_cases hpd : s3.proc = none ∨ env.procAlive = false
    · rw [if_pos hpd]
      cases hf : env.scanPids.filter (hasWin env) with
      | cons pid0 tl =>
        refine ⟨⟨Or.inr h3sig, by simp⟩, ?_, Or.inr rfl⟩
        intro nl hnl
        simp only [List.append_nil, List.nil_append, targetLaunchTimes_append, hnL, hw8,
          targetLaunchTimes_nil] at hnl
        exact absurd hnl (List.not_mem_nil nl)
      | nil =>
        by_cases honce : env.cfg.targetRepeatMode = "once" ∧ s3.onceLaunched = true
        · rw [if_pos honce]
          refine ⟨⟨Or.inr h3sig, h3inv⟩, ?_, Or.inl h3last⟩
          intro nl hnl
          rw [hevpre] at hnl
          exact absurd hnl (List.not_mem_nil nl)
        · rw [if_neg honce]
          by_cases hsch : env.cfg.targetRelaunchCooldownSec ≤ env.now - s3.lastLaunch
              ∧ s3.pendingLaunchAt = none
          · rw [if_pos hsch]
            dsimp only
            have hlm := targetLaunchAndMin_cooldown env
              { s3 with pendingLaunchAt := some (env.now + env.cfg.targetStartDelaySec) }
              (by dsimp only; exact h3sig)
              (by
                intro p hp
                dsimp only at hp ⊢
                rcases Option.some.inj hp with rfl
                have := hsch.1
                omega)
            obtain ⟨hlm1, hlm2, hlm3⟩ := hlm
            refine ⟨hlm1, ?_, ?_⟩
            · intro nl hnl
              rw [hevpre, targetLaunchTimes_append] at hnl
              obtain ⟨e1, e2, e3⟩ := hlm2 nl (by
                rw [targetLaunchTimes_append]
                exact hnl)
              exact ⟨e1, by rw [e2]; exact h3last, e3⟩
            · rcases hlm3 with h | h
              · exact Or.inl (by rw [h]; exact h3last)
              · exact Or.inr h
          · rw [if_neg hsch]
            dsimp only
            obtain ⟨hlm1, hlm2, hlm3⟩ := targetLaunchAndMin_cooldown env s3 h3sig h3inv
            refine ⟨hlm1, ?_, ?_⟩
            · intro nl hnl
              rw [hevpre, targetLaunchTimes_append] at hnl
              obtain ⟨e1, e2, e3⟩ := hlm2 nl (by rw [targetLaunchTimes_append]; exact hnl)
              exact ⟨e1, by rw [e2, h3last], e3⟩
            · rcases hlm3 with h | h
              · exact Or.inl (by rw [h, h3last])
              · exact Or.inr h
    · rw [if_neg hpd]
      dsimp only
      obtain ⟨hlm1, hlm2, hlm3⟩ := targetLaunchAndMin_cooldown env s3 h3sig h3inv
      refine ⟨hlm1, ?_, ?_⟩
      · intro nl hnl
        rw [hevpre, targetLaunchTimes_append] at hnl
        obtain ⟨e1, e2, e3⟩ := hlm2 nl (by rw [targetLaunchTimes_append]; exact hnl)
        exact ⟨e1, by rw [e2, h3last], e3⟩
      · rcases hlm3 with h | h
        · exact Or.inl (by rw [h, h3last])
        · exact Or.inr h

/-- The launch-schedule invariant of the audio worker under a fixed
configuration: the recorded signature (if any) is the current one, and any
pending launch time honours the cooldown relative to `lastLaunch`. -/
def AudioSchedInv (cfg : AudioCfg) (s : AudioSt) : Prop :=
  (s.lastConfigSignature = none
    ∨ s.lastConfigSignature = some (audioConfigSignature cfg))
  ∧ ∀ p, s.pendingLaunchAt = some p →
      s.lastLaunch + cfg.audioRelaunchCooldownSec ≤ p

/-- Adoption of an external pid keeps the signature, clears the pending
launch and stamps `lastLaunch = now`. -/
theorem audioAdopt_spec (env : AudioEnv) (s : AudioSt) (pid : ℕ) :
    (audioAdopt env s pid).lastConfigSignature = s.lastConfigSignature
    ∧ (audioAdopt env s pid).pendingLaunchAt = none
    ∧ (audioAdopt env s pid).lastLaunch = env.now := by
  unfold audioAdopt
  exact ⟨rfl, rfl, rfl⟩

/-- A pure termination burst records no launcher invocations. -/
theorem audioLaunchTimes_map (l : List ℕ) :
    audioLaunchTimes (l.map AudioEv.terminate) = [] := by
  induction l with
  | nil => rfl
  | cons p tl ih => simpa [audioLaunchTimes] using ih

/-- Cooldown behaviour of the audio pending/restore/minimize chain: under the
schedule invariant every launcher invocation it records is stamped
`(env.now, s4.lastLaunch)` and respects the cooldown, the invariant is
preserved, and `lastLaunch` only stays or advances to `env.now`. -/
theorem audioRestChain_cooldown (env : AudioEnv) (s4 : AudioSt)
    (hsig : s4.lastConfigSignature = some (audioConfigSignature env.cfg))
    (hpend : ∀ p, s4.pendingLaunchAt = some p →
        s4.lastLaunch + env.cfg.audioRelaunchCooldownSec ≤ p) :
    AudioSchedInv env.cfg
      (audioMinimizeStep env (audioRestoreAgainStep env
        (audioRestoreStep env (audioPendingStep env s4).1).1).1).1
    ∧ (∀ nl ∈ audioLaunchTimes ((audioPendingStep env s4).2
          ++ (audioRestoreStep env (audioPendingStep env s4).1).2
          ++ (audioRestoreAgainStep env
                (audioRestoreStep env (audioPendingStep env s4).1).1).2
          ++ (audioMinimizeStep env (audioRestoreAgainStep env
                (audioRestoreStep env (audioPendingStep env s4).1).1).1).2),
        nl.1 = env.now ∧ nl.2 = s4.lastLaunch
        ∧ env.cfg.audioRelaunchCooldownSec ≤ nl.1 - nl.2)
    ∧ ((audioMinimizeStep env (audioRestoreAgainStep env
          (audioRestoreStep env (audioPendingStep env s4).1).1).1).1.lastLaunch
          = s4.lastLaunch
        ∨ (audioMinimizeStep env (audioRestoreAgainStep env
            (audioRestoreStep env (audioPendingStep env s4).1).1).1).1.lastLaunch
          = env.now) := by
  obtain ⟨hp0, hpcase⟩ := audioPendingStep_spec env s4
  obtain ⟨h21, h22, h23, _, _, _, _, h28⟩ :=
    audioRestoreStep_frame env (audioPendingStep env s4).1
  obtain ⟨h31, h32, h33, _, _, _, _, h38⟩ :=
    audioRestoreAgainStep_frame env (audioRestoreStep env (audioPendingStep env s4).1).1
  obtain ⟨h41, h42, h43, _, _, _, _, h48⟩ :=
    audioMinimizeStep_frame env (audioRestoreAgainStep env
      (audioRestoreStep env (audioPendingStep env s4).1).1).1
  have hll : (audioMinimizeStep env (audioRestoreAgainStep env
      (audioRestoreStep env (audioPendingStep env s4).1).1).1).1.lastLaunch
      = (audioPendingStep env s4).1.lastLaunch := by rw [h41, h31, h21]
  have hpp : (audioMinimizeStep env (audioRestoreAgainStep env
      (audioRestoreStep env (audioPendingStep env s4).1).1).1).1.pendingLaunchAt
      = (audioPendingStep env s4).1.pendingLaunchAt := by rw [h42, h32, h22]
  have hss : (audioMinimizeStep env (audioRestoreAgainStep env
      (audioRestoreStep env (audioPendingStep env s4).1).1).1).1.lastConfigSignature
      = s4.lastConfigSignature := by rw [h43, h33, h23, hp0]
  have hev : ∀ nl : ℤ × ℤ, nl ∈ audioLaunchTimes ((audioPendingStep env s4).2
      ++ (audioRestoreStep env (audioPendingStep env s4).1).2
      ++ (audioRestoreAgainStep env
            (audioRestoreStep env (audioPendingStep env s4).1).1).2
      ++ (audioMinimizeStep env (audioRestoreAgainStep env
            (audioRestoreStep env (audioPendingStep env s4).1).1).1).2)
      → nl ∈ audioLaunchTimes (audioPendingStep env s4).2 := by
    intro nl hnl
    simp only [audioLaunchTimes_append, h28, h38, h48, List.append_nil] at hnl
    exact hnl
  cases hpcase with
  | inl h =>
    obtain ⟨hl1, hl2, hl3⟩ := h
    refine ⟨⟨Or.inr (hss.trans hsig), ?_⟩, ?_, Or.inl (hll.trans hl1)⟩
    · intro p hp
      rw [hpp, hl2] at hp
      rw [hll, hl1]
      exact hpend p hp
    · intro nl hnl
      have hmem := hev nl hnl
      rw [hl3] at hmem
      exact absurd hmem (List.not_mem_nil nl)
  | inr h =>
    obtain ⟨p, hp, hple, hl1, hl2, hl3⟩ := h
    have hcd : env.cfg.audioRelaunchCooldownSec ≤ env.now - s4.lastLaunch := by
      have := hpend p hp
      omega
    refine ⟨⟨Or.inr (hss.trans hsig), ?_⟩, ?_, Or.inr (hll.trans hl1)⟩
    · intro q hq
      rw [hpp, hl2] at hq
      exact Option.noConfusion hq
    · intro nl hnl
      have hmem := hev nl hnl
      have heq := hl3 nl hmem
      subst heq
      exact ⟨rfl, rfl, hcd⟩

/-- Master cooldown lemma for one audio tick under a fixed configuration:
the schedule invariant is preserved, every launcher invocation is stamped
`(env.now, s.lastLaunch)` and respects the cooldown, and `lastLaunch` only
stays or advances to `env.now`. -/
theorem audioTick_cooldown (cfg : AudioCfg) (env : AudioEnv) (s : AudioSt)
    (hc : env.cfg = cfg) (hdelay : 0 ≤ cfg.audioStartDelaySec)
    (hinv : AudioSchedInv cfg s) :
    AudioSchedInv cfg (audioTick env s).1
    ∧ (∀ nl ∈ audioLaunchTimes (audioTick env s).2,
        nl.1 = env.now ∧ nl.2 = s.lastLaunch
        ∧ cfg.audioRelaunchCooldownSec ≤ nl.1 - nl.2)
    ∧ ((audioTick env s).1.lastLaunch = s.lastLaunch
        ∨ (audioTick env s).1.lastLaunch = env.now) := by
  cases hc
  obtain ⟨hsig, hpend⟩ := hinv
  have h1 : (audioConfigStage env s).1.lastConfigSignature
        = some (audioConfigSignature env.cfg)
      ∧ (audioConfigStage env s).1.pendingLaunchAt = s.pendingLaunchAt
      ∧ (audioConfigStage env s).1.lastLaunch = s.lastLaunch
      ∧ (audioConfigStage env s).2 = [] := by
    cases hsig with
    | inl h => rw [audioConfigStage_noSig env s h]; exact ⟨rfl, rfl, rfl, rfl⟩
    | inr h => rw [audioConfigStage_fixedSig env s h]; exact ⟨h, rfl, rfl, rfl⟩
  obtain ⟨h1sig, h1pend, h1last, h1ev⟩ := h1
  have h0inv : ∀ p, (audioConfigStage env s).1.pendingLaunchAt = some p →
      (audioConfigStage env s).1.lastLaunch + env.cfg.audioRelaunchCooldownSec ≤ p := by
    intro p hp
    rw [h1pend] at hp
    rw [h1last]
    exact hpend p hp
  unfold audioTick
  dsimp only
  rw [h1ev]
  by_cases hen : env.cfg.audioEnabled = false
  · rw [if_pos hen]
    obtain ⟨hsp1, hsp2, hsp3, hsp4⟩ := audioStopProc_spec env (audioConfigStage env s).1
    refine ⟨⟨Or.inr ?_, ?_⟩, ?_, ?_⟩
    · exact (show (audioStopProc env (audioConfigStage env s).1).1.lastConfigSignature
        = some (audioConfigSignature env.cfg) from by rw [hsp3, h1sig])
    · intro p hp
      exact Option.noConfusion hp
    · intro nl hnl
      rw [List.nil_append] at hnl
      rw [hsp4] at hnl
      exact absurd hnl (List.not_mem_nil nl)
    · exact Or.inl (show (audioStopProc env (audioConfigStage env s).1).1.lastLaunch
        = s.lastLaunch from by rw [hsp1, h1last])
  · rw [if_neg hen]
    by_cases hpd : (audioConfigStage env s).1.proc = none ∨ env.procAlive = false
    · rw [if_pos hpd]
      by_cases hm : audioPwaMode env.cfg
      · rw [if_pos hm]
        cases hfa : env.appIdPids.filter (hasWinA env) with
        | cons v0 t2 =>
          refine ⟨⟨Or.inr (by rw [(audioAdopt_spec env _ v0).1, h1sig]), ?_⟩, ?_, ?_⟩
          · intro p hp
            rw [(audioAdopt_spec env _ v0).2.1] at hp
            exact Option.noConfusion hp
          · intro nl hnl
            exact absurd hnl (List.not_mem_nil nl)
          · exact Or.inr (audioAdopt_spec env _ v0).2.2
        | nil =>
          cases hap : env.appIdPids with
          | cons e0 t2 =>
            dsimp only
            by_cases hcd : env.now - (audioConfigStage env s).1.lastLaunch
                < env.cfg.audioRelaunchCooldownSec
            · rw [if_pos hcd]
              refine ⟨⟨Or.inr (by rw [(audioAdopt_spec env _ e0).1, h1sig]), ?_⟩, ?_, ?_⟩
              · intro p hp
                rw [(audioAdopt_spec env _ e0).2.1] at hp
                exact Option.noConfusion hp
              · intro nl hnl
                exact absurd hnl (List.not_mem_nil nl)
              · exact Or.inr (audioAdopt_spec env _ e0).2.2
            · rw [if_neg hcd]
              by_cases honce : env.cfg.audioRepeatMode = "once"
                  ∧ (audioConfigStage env s).1.onceLaunched = true
              · rw [if_pos honce]
                exact ⟨⟨Or.inr h1sig, h0inv⟩,
                       fun nl hnl => absurd hnl (List.not_mem_nil nl),
                       Or.inl h1last⟩
              · rw [if_neg honce]
                by_cases hsch : env.cfg.audioRelaunchCooldownSec
                      ≤ env.now - (audioConfigStage env s).1.lastLaunch
                    ∧ (audioConfigStage env s).1.pendingLaunchAt = none
                · rw [if_pos hsch]
                  dsimp only
                  obtain ⟨hc1, hc2, hc3⟩ := audioRestChain_cooldown env
                    { (audioConfigStage env s).1 with
                        pendingLaunchAt := some (env.now + env.cfg.audioStartDelaySec) }
                    (by dsimp only; exact h1sig)
                    (by
                      intro p hp
                      dsimp only at hp ⊢
                      rcases Option.some.inj hp with rfl
                      have := hsch.1
                      omega)
                  refine ⟨hc1, ?_, ?_⟩
                  · intro nl hnl
                    rw [List.nil_append] at hnl
                    obtain ⟨e1, e2, e3⟩ := hc2 nl hnl
                    exact ⟨e1, by rw [e2]; exact h1last, e3⟩
                  · rcases hc3 with h | h
                    · exact Or.inl (by rw [h]; exact h1last)
                    · exact Or.inr h
                · rw [if_neg hsch]
                  dsimp only
                  obtain ⟨hc1, hc2, hc3⟩ :=
                    audioRestChain_cooldown env (audioConfigStage env s).1 h1sig h0inv
                  refine ⟨hc1, ?_, ?_⟩
                  · intro nl hnl
                    rw [List.nil_append] at hnl
                    obtain ⟨e1, e2, e3⟩ := hc2 nl hnl
                    exact ⟨e1, by rw [e2, h1last], e3⟩
                  · rcases hc3 with h | h
                    · exact Or.inl (h.trans h1last)
                    · exact Or.inr h
          | nil =>
            dsimp only
            by_cases honce : env.cfg.audioRepeatMode = "once"
                ∧ (audioConfigStage env s).1.onceLaunched = true
            · rw [if_pos honce]
              exact ⟨⟨Or.inr h1sig, h0inv⟩,
                     fun nl hnl => absurd hnl (List.not_mem_nil nl),
                     Or.inl h1last⟩
            · rw [if_neg honce]
              by_cases hsch : env.cfg.audioRelaunchCooldownSec
                    ≤ env.now - (audioConfigStage env s).1.lastLaunch
                  ∧ (audioConfigStage env s).1.pendingLaunchAt = none
              · rw [if_pos hsch]
                dsimp only
                obtain ⟨hc1, hc2, hc3⟩ := audioRestChain_cooldown env
                  { (audioConfigStage env s).1 with
                      pendingLaunchAt := some (env.now + env.cfg.audioStartDelaySec) }
                  (by dsimp only; exact h1sig)
                  (by
                    intro p hp
                    dsimp only at hp ⊢
                    rcases Option.some.inj hp with rfl
                    have := hsch.1
                    omega)
                refine ⟨hc1, ?_, ?_⟩
                · intro nl hnl
                  rw [List.nil_append] at hnl
                  obtain ⟨e1, e2, e3⟩ := hc2 nl hnl
                  exact ⟨e1, by rw [e2]; exact h1last, e3⟩
                · rcases hc3 with h | h
                  · exact Or.inl (by rw [h]; exact h1last)
                  · exact Or.inr h
              · rw [if_neg hsch]
                dsimp only
                obtain ⟨hc1, hc2, hc3⟩ :=
                  audioRestChain_cooldown env (audioConfigStage env s).1 h1sig h0inv
                refine ⟨hc1, ?_, ?_⟩
                · intro nl hnl
                  rw [List.nil_append] at hnl
                  obtain ⟨e1, e2, e3⟩ := hc2 nl hnl
                  exact ⟨e1, by rw [e2, h1last], e3⟩
                · rcases hc3 with h | h
                  · exact Or.inl (h.trans h1last)
                  · exact Or.inr h
      · rw [if_neg hm]
        cases hpp : env.profilePids with
        | nil =>
          dsimp only
          by_cases honce : env.cfg.audioRepeatMode = "once"
              ∧ (audioConfigStage env s).1.onceLaunched = true
          · rw [if_pos honce]
            exact ⟨⟨Or.inr h1sig, h0inv⟩,
                   fun nl hnl => absurd hnl (List.not_mem_nil nl),
                   Or.inl h1last⟩
          · rw [if_neg honce]
            by_cases hsch : env.cfg.audioRelaunchCooldownSec
                  ≤ env.now - (audioConfigStage env s).1.lastLaunch
                ∧ (audioConfigStage env s).1.pendingLaunchAt = none
            · rw [if_pos hsch]
              dsimp only
              obtain ⟨hc1, hc2, hc3⟩ := audioRestChain_cooldown env
                { (audioConfigStage env s).1 with
                    pendingLaunchAt := some (env.now + env.cfg.audioStartDelaySec) }
                (by dsimp only; exact h1sig)
                (by
                  intro p hp
                  dsimp only at hp ⊢
                  rcases Option.some.inj hp with rfl
                  have := hsch.1
                  omega)
              refine ⟨hc1, ?_, ?_⟩
              · intro nl hnl
                rw [List.nil_append] at hnl
                obtain ⟨e1, e2, e3⟩ := hc2 nl hnl
                exact ⟨e1, by rw [e2]; exact h1last, e3⟩
              · rcases hc3 with h | h
                · exact Or.inl (by rw [h]; exact h1last)
                · exact Or.inr h
            · rw [if_neg hsch]
              dsimp only
              obtain ⟨hc1, hc2, hc3⟩ :=
                audioRestChain_cooldown env (audioConfigStage env s).1 h1sig h0inv
              refine ⟨hc1, ?_, ?_⟩
              · intro nl hnl
                rw [List.nil_append] at hnl
                obtain ⟨e1, e2, e3⟩ := hc2 nl hnl
                exact ⟨e1, by rw [e2, h1last], e3⟩
              · rcases hc3 with h | h
                · exact Or.inl (h.trans h1last)
                · exact Or.inr h
        | cons e0 t2 =>
          cases ht2 : t2 with
          | nil =>
            refine ⟨⟨Or.inr (by rw [(audioAdopt_spec env _ e0).1, h1sig]), ?_⟩, ?_, ?_⟩
            · intro p hp
              rw [(audioAdopt_spec env _ e0).2.1] at hp
              exact Option.noConfusion hp
            · intro nl hnl
              exact absurd hnl (List.not_mem_nil nl)
            · exact Or.inr (audioAdopt_spec env _ e0).2.2
          | cons e1 t3 =>
            dsimp only
            refine ⟨⟨Or.inr (by rw [(audioAdopt_spec env _ _).1, h1sig]), ?_⟩, ?_, ?_⟩
            · intro p hp
              rw [(audioAdopt_spec env _ _).2.1] at hp
              exact Option.noConfusion hp
            · intro nl hnl
              rw [List.nil_append, audioLaunchTimes_map] at hnl
              exact absurd hnl (List.not_mem_nil nl)
            · exact Or.inr (audioAdopt_spec env _ _).2.2
    · rw [if_neg hpd]
      dsimp only
      obtain ⟨hc1, hc2, hc3⟩ :=
        audioRestChain_cooldown env (audioConfigStage env s).1 h1sig h0inv
      refine ⟨hc1, ?_, ?_⟩
      · intro nl hnl
        rw [List.nil_append] at hnl
        obtain ⟨e1, e2, e3⟩ := hc2 nl hnl
        exact ⟨e1, by rw [e2, h1last], e3⟩
      · rcases hc3 with h | h
        · exact Or.inl (h.trans h1last)
        · exact Or.inr h

/-- Run-level cooldown for the target worker under a fixed configuration
with a nonnegative start delay: the schedule invariant is preserved and
every launcher invocation of the run respects the cooldown. -/
theorem targetRun_cooldown (cfg : TargetCfg) (hdelay : 0 ≤ cfg.targetStartDelaySec) :
    ∀ (envs : List TargetEnv) (s : TargetSt),
      (∀ e ∈ envs, e.cfg = cfg) → TargetSchedInv cfg s →
      TargetSchedInv cfg (targetRun envs s).1
      ∧ ∀ nl ∈ targetLaunchTimes (targetRun envs s).2,
          cfg.targetRelaunchCooldownSec ≤ nl.1 - nl.2 := by
  intro envs
  induction envs with
  | nil =>
    intro s _ hinv
    exact ⟨hinv, fun nl hnl => absurd hnl (List.not_mem_nil nl)⟩
  | cons e tail ih =>
    intro s hc hinv
    obtain ⟨h1, h2, _⟩ := targetTick_cooldown cfg e s (hc e (List.mem_cons_self e tail))
      hdelay hinv
    obtain ⟨ih1, ih2⟩ := ih (targetTick e s).1
      (fun e2 he2 => hc e2 (List.mem_cons_of_mem e he2)) h1
    refine ⟨ih1, ?_⟩
    intro nl hnl
    have hnl2 : nl ∈ targetLaunchTimes
        ((targetTick e s).2 ++ (targetRun tail (targetTick e s).1).2) := hnl
    rw [targetLaunchTimes_append] at hnl2
    rcases List.mem_append.mp hnl2 with h | h
    · exact (h2 nl h).2.2
    · exact ih2 nl h

/-- Run-level cooldown for the target worker from a time lower bound `t0`:
when every tick clock is at least `t0` and `lastLaunch` starts at or above
`t0`, every launcher invocation of the run fires at or after
`t0 + cooldown`. -/
theorem targetRun_cooldown_from (cfg : TargetCfg) (hdelay : 0 ≤ cfg.targetStartDelaySec)
    (t0 : ℤ) :
    ∀ (envs : List TargetEnv) (s : TargetSt),
      (∀ e ∈ envs, e.cfg = cfg ∧ t0 ≤ e.now) → TargetSchedInv cfg s →
      t0 ≤ s.lastLaunch →
      TargetSchedInv cfg (targetRun envs s).1
      ∧ (∀ nl ∈ targetLaunchTimes (targetRun envs s).2,
          cfg.targetRelaunchCooldownSec ≤ nl.1 - nl.2
          ∧ t0 + cfg.targetRelaunchCooldownSec ≤ nl.1)
      ∧ t0 ≤ (targetRun envs s).1.lastLaunch := by
  intro envs
  induction envs with
  | nil =>
    intro s _ hinv hll
    exact ⟨hinv, fun nl hnl => absurd hnl (List.not_mem_nil nl), hll⟩
  | cons e tail ih =>
    intro s hc hinv hll
    obtain ⟨hce, hte⟩ := hc e (List.mem_cons_self e tail)
    obtain ⟨h1, h2, h3⟩ := targetTick_cooldown cfg e s hce hdelay hinv
    have hll1 : t0 ≤ (targetTick e s).1.lastLaunch := by
      rcases h3 with h | h
      · rw [h]; exact hll
      · rw [h]; exact hte
    obtain ⟨ih1, ih2, ih3⟩ := ih (targetTick e s).1
      (fun e2 he2 => hc e2 (List.mem_cons_of_mem e he2)) h1 hll1
    refine ⟨ih1, ?_, ih3⟩
    intro nl hnl
    have hnl2 : nl ∈ targetLaunchTimes
        ((targetTick e s).2 ++ (targetRun tail (targetTick e s).1).2) := hnl
    rw [targetLaunchTimes_append] at hnl2
    rcases List.mem_append.mp hnl2 with h | h
    · obtain ⟨e1, e2, e3⟩ := h2 nl h
      have h4 : t0 ≤ nl.2 := by rw [e2]; exact hll
      exact ⟨e3, by omega⟩
    · exact ih2 nl h

/-- Run-level cooldown for the audio worker under a fixed configuration
with a nonnegative start delay: the schedule invariant is preserved and
every launcher invocation of the run respects the cooldown. -/
theorem audioRun_cooldown (cfg : AudioCfg) (hdelay : 0 ≤ cfg.audioStartDelaySec) :
    ∀ (envs : List AudioEnv) (s : AudioSt),
      (∀ e ∈ envs, e.cfg = cfg) → AudioSchedInv cfg s →
      AudioSchedInv cfg (audioRun envs s).1
      ∧ ∀ nl ∈ audioLaunchTimes (audioRun envs s).2,
          cfg.audioRelaunchCooldownSec ≤ nl.1 - nl.2 := by
  intro envs
  induction envs with
  | nil =>
    intro s _ hinv
    exact ⟨hinv, fun nl hnl => absurd hnl (List.not_mem_nil nl)⟩
  | cons e tail ih =>
    intro s hc hinv
    obtain ⟨h1, h2, _⟩ := audioTick_cooldown cfg e s (hc e (List.mem_cons_self e tail))
      hdelay hinv
    obtain ⟨ih1, ih2⟩ := ih (audioTick e s).1
      (fun e2 he2 => hc e2 (List.mem_cons_of_mem e he2)) h1
    refine ⟨ih1, ?_⟩
    intro nl hnl
    have hnl2 : nl ∈ audioLaunchTimes
        ((audioTick e s).2 ++ (audioRun tail (audioTick e s).1).2) := hnl
    rw [audioLaunchTimes_append] at hnl2
    rcases List.mem_append.mp hnl2 with h | h
    · exact (h2 nl h).2.2
    · exact ih2 nl h

/-- C2: cooldown monotonicity.  For each role, over any run under a fixed
configuration (with a nonnegative start delay) from the worker's initial
state, every invocation of the process launcher — each recorded with the
deciding `now` and the `lastLaunchAt` in force at that moment — satisfies
`cooldown ≤ now - lastLaunchAt`: a launch fires only when the cooldown has
elapsed since the last launch attempt. -/
theorem cooldown_monotonicity
    (tcfg : TargetCfg) (tenvs : List TargetEnv) (tr : ℤ)
    (acfg : AudioCfg) (aenvs : List AudioEnv)
    (htc : ∀ e ∈ tenvs, e.cfg = tcfg) (htd : 0 ≤ tcfg.targetStartDelaySec)
    (hac : ∀ e ∈ aenvs, e.cfg = acfg) (had : 0 ≤ acfg.audioStartDelaySec) :
    (∀ nl ∈ targetLaunchTimes (targetRun tenvs (targetInit tcfg tr)).2,
        tcfg.targetRelaunchCooldownSec ≤ nl.1 - nl.2)
    ∧ (∀ nl ∈ audioLaunchTimes (audioRun aenvs audioInit).2,
        acfg.audioRelaunchCooldownSec ≤ nl.1 - nl.2) := by
  constructor
  · have hinv : TargetSchedInv tcfg (targetInit tcfg tr) :=
      ⟨Or.inl rfl, fun p hp => Option.noConfusion hp⟩
    exact (targetRun_cooldown tcfg htd tenvs (targetInit tcfg tr) htc hinv).2
  · have hinv : AudioSchedInv acfg audioInit :=
      ⟨Or.inl rfl, fun p hp => Option.noConfusion hp⟩
    exact (audioRun_cooldown acfg had aenvs audioInit hac hinv).2

/-- C2 witness environment (target): an enabled tick at `now = 1000` with an
empty scan, on which the scheduler schedules and immediately fires a launch. -/
def envC2t : TargetEnv :=
  { cfg := cfgTW, now := 1000, procAlive := false, scanPids := [], winPids := [],
    launchResult := some 5, uiActiveCount := 0, saverActiveVal := 0,
    saverTriggerAt := 0, noticeDismissedAt := 0 }

/-- C2 witness environment (audio): an enabled chrome-mode tick at
`now = 1000` with empty scans, on which the scheduler schedules and
immediately fires a launch. -/
def envC2a : AudioEnv :=
  { cfg := cfgAW, now := 1000, procAlive := false, appIdPids := [],
    profilePids := [], winPids := [], pwaLaunchResult := none,
    chromeLaunchResult := some 9 }

/-- Witness for C2: on the one-tick runs from `envC2t` / `envC2a` (each of
which does fire a launcher invocation) every recorded launch respects the
configured cooldown. -/
theorem cooldown_monotonicity_witness :
    (∀ nl ∈ targetLaunchTimes (targetRun [envC2t] (targetInit cfgTW 0)).2,
        cfgTW.targetRelaunchCooldownSec ≤ nl.1 - nl.2)
    ∧ (∀ nl ∈ audioLaunchTimes (audioRun [envC2a] audioInit).2,
        cfgAW.audioRelaunchCooldownSec ≤ nl.1 - nl.2) :=
  cooldown_monotonicity cfgTW [envC2t] 0 cfgAW [envC2a]
    (by intro e he; rw [List.mem_singleton] at he; rw [he]; rfl)
    (by decide)
    (by intro e he; rw [List.mem_singleton] at he; rw [he]; rfl)
    (by decide)

/-- The one-tick target run of the C2 witness does invoke the launcher,
stamped `(1000, 0)`. -/
theorem envC2_runs_fire_launches :
    targetLaunchTimes (targetRun [envC2t] (targetInit cfgTW 0)).2 = [(1000, 0)]
    ∧ audioLaunchTimes (audioRun [envC2a] audioInit).2 = [(1000, 0)] := by
  decide

/-- C9: a transient launch failure is not fatal and is retried only after
the cooldown.  On a tick whose due `pendingLaunchAt` fires the launcher and
the spawn fails (`launch_chrome` returns `None`), the tick completes
normally: no handle is stored, `pendingLaunchAt` is left cleared,
`lastLaunch` records the failed attempt, and exactly one launcher invocation
was made; and over any subsequent ticks under the same configuration the
next launcher invocation happens no earlier than one full relaunch cooldown
after the failed attempt. -/
theorem launch_failure_retry (env : TargetEnv) (s : TargetSt) (p : ℤ)
    (hen : env.cfg.targetEnabled = true)
    (hproc : s.proc = none) (hext : s.externalPid = none)
    (hscan : env.scanPids.filter (hasWin env) = [])
    (hmode : ¬(env.cfg.targetRepeatMode = "once" ∧ s.onceLaunched = true))
    (hpend : s.pendingLaunchAt = some p) (hdue : p ≤ env.now)
    (hfail : env.launchResult = none) :
    (targetTick env s).1.proc = none
    ∧ (targetTick env s).1.pendingLaunchAt = none
    ∧ (targetTick env s).1.lastLaunch = env.now
    ∧ targetLaunchTimes (targetTick env s).2 = [(env.now, s.lastLaunch)]
    ∧ (0 ≤ env.cfg.targetStartDelaySec →
        ∀ envs : List TargetEnv, (∀ e ∈ envs, e.cfg = env.cfg ∧ env.now ≤ e.now) →
        ∀ nl ∈ targetLaunchTimes (targetRun envs (targetTick env s).1).2,
          env.now + env.cfg.targetRelaunchCooldownSec ≤ nl.1) := by
  have hcfg := targetConfigStage_procNone env s hproc
  set s1 : TargetSt := { s with lastConfigSignature := some (targetConfigSignature env.cfg) }
    with hs1
  obtain ⟨hSS, hT2, hL2⟩ := targetNoticeStep_sched env s1
  obtain ⟨hp1, hp2, _, _, _, hp6, hp7, hp8, hp9, _⟩ := hSS
  have h2p : (targetNoticeStep env s1).1.proc = none := by rw [hp1]; exact hproc
  have h2e : (targetNoticeStep env s1).1.externalPid = none := by rw [hp2]; exact hext
  have hcur : targetCurrentPid env (targetNoticeStep env s1).1 = none := by
    unfold targetCurrentPid
    rw [h2p, h2e]
  have hwd := targetWatchdog_noPid env (targetNoticeStep env s1).1 hcur
  have hshape : (targetTick env s).1.proc = none
      ∧ (targetTick env s).1.pendingLaunchAt = none
      ∧ (targetTick env s).1.lastLaunch = env.now
      ∧ targetLaunchTimes (targetTick env s).2 = [(env.now, s.lastLaunch)]
      ∧ (targetTick env s).1.lastConfigSignature
          = some (targetConfigSignature env.cfg) := by
    unfold targetTick
    rw [hcfg]
    dsimp only
    rw [if_neg (by simp [hen])]
    rw [hwd]
    dsimp only
    set s2 := (targetNoticeStep env s1).1 with hs2
    have h2pend : s2.pendingLaunchAt = some p := by rw [hs2, hp7]; exact hpend
    have h2last : s2.lastLaunch = s.lastLaunch := by rw [hs2, hp6]
    have h2once : s2.onceLaunched = s.onceLaunched := by rw [hs2, hp9]
    unfold targetSched
    dsimp only
    rw [if_pos (Or.inl h2p)]
    cases hf : env.scanPids.filter (hasWin env) with
    | cons pid0 tl =>
      rw [hscan] at hf
      exact absurd hf (by simp)
    | nil =>
      have honce2 : ¬(env.cfg.targetRepeatMode = "once" ∧ s2.onceLaunched = true) := by
        rw [h2once]
        exact hmode
      rw [if_neg honce2]
      have hsch : ¬(env.cfg.targetRelaunchCooldownSec ≤ env.now - s2.lastLaunch
          ∧ s2.pendingLaunchAt = none) := by
        intro hcon
        rw [h2pend] at hcon
        exact Option.noConfusion hcon.2
      rw [if_neg hsch]
      dsimp only
      have hls : targetLaunchStep env s2
          = ({ s2 with proc := none, lastLaunch := env.now, pendingLaunchAt := none,
                       onceLaunched := true, missingWindowSince := none },
             [TargetEv.launch env.now s2.lastLaunch]) := by
        unfold targetLaunchStep
        rw [h2pend]
        dsimp only
        rw [if_pos hdue]
        rw [hfail]
        rw [if_neg (by simp)]
      obtain ⟨_, hm2, hm3, hm4, _, hm6, _, _, _, _, hm11, _⟩ :=
        targetMinimizeStep_frame env (targetLaunchStep env s2).1
      refine ⟨?_, ?_, ?_, ?_, ?_⟩
      · rw [hm6, hls]
      · rw [hm4, hls]
      · rw [hm3, hls]
      · simp only [List.nil_append, targetLaunchTimes_append, hL2, hm11,
          List.append_nil]
        rw [hls]
        dsimp only
        rw [h2last]
        rfl
      · rw [hm2, hls]
        exact (show s2.lastConfigSignature = some (targetConfigSignature env.cfg) from by
          rw [hs2, hp8])
  refine ⟨hshape.1, hshape.2.1, hshape.2.2.1, hshape.2.2.2.1, ?_⟩
  intro hdelay envs hces nl hnl
  have hinv2 : TargetSchedInv env.cfg (targetTick env s).1 := by
    refine ⟨Or.inr hshape.2.2.2.2, ?_⟩
    intro q hq
    rw [hshape.2.1] at hq
    exact Option.noConfusion hq
  have hll : env.now ≤ (targetTick env s).1.lastLaunch := by
    rw [hshape.2.2.1]
  obtain ⟨_, hr2, _⟩ := targetRun_cooldown_from env.cfg hdelay env.now envs
    (targetTick env s).1 hces hinv2 hll
  exact (hr2 nl hnl).2

/-- C9 witness state: idle scheduler with a launch pending at time 500. -/
def sC9 : TargetSt := { targetInit cfgTW 0 with pendingLaunchAt := some 500 }

/-- C9 witness environment: the due tick's `launch_chrome` fails. -/
def envC9 : TargetEnv := { envC2t with launchResult := none }

/-- Witness for C9: on the failing tick from `sC9` / `envC9` no handle is
stored, the pending launch stays cleared, the failed attempt is stamped, and
later launches under the same configuration wait out the cooldown. -/
theorem launch_failure_retry_witness :
    (targetTick envC9 sC9).1.proc = none
    ∧ (targetTick envC9 sC9).1.pendingLaunchAt = none
    ∧ (targetTick envC9 sC9).1.lastLaunch = envC9.now
    ∧ targetLaunchTimes (targetTick envC9 sC9).2 = [(envC9.now, sC9.lastLaunch)]
    ∧ (0 ≤ envC9.cfg.targetStartDelaySec →
        ∀ envs : List TargetEnv, (∀ e ∈ envs, e.cfg = envC9.cfg ∧ envC9.now ≤ e.now) →
        ∀ nl ∈ targetLaunchTimes (targetRun envs (targetTick envC9 sC9).1).2,
          envC9.now + envC9.cfg.targetRelaunchCooldownSec ≤ nl.1) :=
  launch_failure_retry envC9 sC9 500 (by decide) rfl rfl rfl (by decide) rfl
    (by decide) rfl

/-- The config-signature stage never touches the notice window state and
emits no interaction-lock calls (its only events are terminations). -/
theorem targetConfigStage_notice (env : TargetEnv) (s : TargetSt) :
    (targetConfigStage env s).1.noticeVisible = s.noticeVisible
    ∧ (targetConfigStage env s).1.noticeLocked = s.noticeLocked
    ∧ targetLockSets (targetConfigStage env s).2 = [] := by
  obtain ⟨_, _, _, hv, hl, _, _, hls⟩ := targetStopProc_spec env
    { s with lastConfigSignature := some (targetConfigSignature env.cfg) }
  unfold targetConfigStage
  cases hcs : s.lastConfigSignature with
  | none => exact ⟨rfl, rfl, rfl⟩
  | some prev =>
    dsimp only
    by_cases he : targetConfigSignature env.cfg = prev
    · rw [if_pos he]
      exact ⟨rfl, rfl, rfl⟩
    · rw [if_neg he]
      by_cases hpr : ¬s.proc = none ∧ env.procAlive = true
      · rw [if_pos hpr]
        exact ⟨hv, hl, hls⟩
      · rw [if_neg hpr]
        exact ⟨rfl, rfl, rfl⟩

/-- The `ui_active > 0` decision branch: assuming the hide-clears-lock
invariant, the notice ends the branch unlocked, only `lockSet false` calls
are made, and a visible notice is dropped behind. -/
theorem decideUiActive_lock (s : TargetSt)
    (hinv : s.noticeVisible = false → s.noticeLocked = false) :
    (decideUiActive s).1.noticeLocked = false
    ∧ (∀ b ∈ targetLockSets (decideUiActive s).2, b = false)
    ∧ (s.noticeVisible = true → TargetEv.lowerNotice ∈ (decideUiActive s).2) := by
  unfold decideUiActive
  by_cases hv : s.noticeVisible = true
  · rw [if_pos hv]
    refine ⟨rfl, ?_, fun _ => by simp⟩
    intro b hb
    simp [targetLockSets] at hb
    exact hb
  · rw [if_neg hv]
    refine ⟨hinv (by revert hv; cases s.noticeVisible <;> simp), ?_,
            fun hvv => absurd hvv hv⟩
    intro b hb
    exact absurd hb (List.not_mem_nil b)

/-- The whole notice-coordinator stage on a tick with `ui_active > 0`:
assuming the hide-clears-lock invariant, the notice ends the stage unlocked,
the stage never calls `set_interaction_lock(True)`, and a visible notice is
dropped behind. -/
theorem targetNoticeStep_uiLock (env : TargetEnv) (s : TargetSt)
    (hui : 0 < env.uiActiveCount)
    (hinv : s.noticeVisible = false → s.noticeLocked = false) :
    (targetNoticeStep env s).1.noticeLocked = false
    ∧ (∀ b ∈ targetLockSets (targetNoticeStep env s).2, b = false)
    ∧ (s.noticeVisible = true → TargetEv.lowerNotice ∈ (targetNoticeStep env s).2) := by
  have hb : uiActiveB env = true := by
    unfold uiActiveB
    exact decide_eq_true hui
  obtain ⟨hro1, hro2, hro3, hro4⟩ := noticeHousekeeping_ro env s
  have hinv2 : (noticeHousekeeping env s).noticeVisible = false →
      (noticeHousekeeping env s).noticeLocked = false := by
    intro h
    rw [hro3]
    exact hinv (by rw [← hro2]; exact h)
  obtain ⟨d1, d2, d3⟩ := decideUiActive_lock (noticeHousekeeping env s) hinv2
  unfold targetNoticeStep noticeDecision
  dsimp only
  rw [if_pos hb]
  exact ⟨d1, d2, fun hv => d3 (by rw [hro2]; exact hv)⟩

/-- The launch-scheduler stage never touches the notice window state and
never calls `set_interaction_lock`. -/
theorem targetSched_noticeRO (env : TargetEnv) (s : TargetSt) :
    (targetSched env s).1.noticeVisible = s.noticeVisible
    ∧ (targetSched env s).1.noticeLocked = s.noticeLocked
    ∧ targetLockSets (targetSched env s).2 = [] := by
  unfold targetSched
  dsimp only
  by_cases hpd : s.proc = none ∨ env.procAlive = false
  · rw [if_pos hpd]
    cases hf : env.scanPids.filter (hasWin env) with
    | cons pid0 tl => exact ⟨rfl, rfl, rfl⟩
    | nil =>
      by_cases honce : env.cfg.targetRepeatMode = "once" ∧ s.onceLaunched = true
      · rw [if_pos honce]
        exact ⟨rfl, rfl, rfl⟩
      · rw [if_neg honce]
        by_cases hsch : env.cfg.targetRelaunchCooldownSec ≤ env.now - s.lastLaunch
            ∧ s.pendingLaunchAt = none
        · rw [if_pos hsch]
          dsimp only
          obtain ⟨_, _, hl3, hl4, _, _, hl7⟩ := targetLaunchStep_frame env
            { s with pendingLaunchAt := some (env.now + env.cfg.targetStartDelaySec) }
          obtain ⟨_, _, _, _, _, _, hm7, hm8, _, _, _, hm12⟩ := targetMinimizeStep_frame env
            (targetLaunchStep env
              { s with pendingLaunchAt := some (env.now + env.cfg.targetStartDelaySec) }).1
          exact ⟨by rw [hm7, hl3], by rw [hm8, hl4],
                 by simp [targetLockSets_append, hl7, hm12]⟩
        · rw [if_neg hsch]
          dsimp only
          obtain ⟨_, _, hl3, hl4, _, _, hl7⟩ := targetLaunchStep_frame env s
          obtain ⟨_, _, _, _, _, _, hm7, hm8, _, _, _, hm12⟩ :=
            targetMinimizeStep_frame env (targetLaunchStep env s).1
          exact ⟨by rw [hm7, hl3], by rw [hm8, hl4],
                 by simp [targetLockSets_append, hl7, hm12]⟩
  · rw [if_neg hpd]
    dsimp only
    obtain ⟨_, _, hl3, hl4, _, _, hl7⟩ := targetLaunchStep_frame env s
    obtain ⟨_, _, _, _, _, _, hm7, hm8, _, _, _, hm12⟩ :=
      targetMinimizeStep_frame env (targetLaunchStep env s).1
    exact ⟨by rw [hm7, hl3], by rw [hm8, hl4],
           by simp [targetLockSets_append, hl7, hm12]⟩

/-- One whole target tick with `ui_active > 0`: assuming the hide-clears-lock
invariant, the tick ends with the notice unlocked, never calls
`set_interaction_lock(True)`, and drops a visible notice behind. -/
theorem targetTick_uiLock (env : TargetEnv) (s : TargetSt)
    (hui : 0 < env.uiActiveCount)
    (hinv : s.noticeVisible = false → s.noticeLocked = false) :
    (targetTick env s).1.noticeLocked = false
    ∧ (∀ b ∈ targetLockSets (targetTick env s).2, b = false)
    ∧ (s.noticeVisible = true → TargetEv.lowerNotice ∈ (targetTick env s).2) := by
  obtain ⟨hc1, hc2, hc3⟩ := targetConfigStage_notice env s
  have hinv1 : (targetConfigStage env s).1.noticeVisible = false →
      (targetConfigStage env s).1.noticeLocked = false := by
    intro h
    rw [hc2]
    exact hinv (by rw [← hc1]; exact h)
  obtain ⟨hn1, hn2, hn3⟩ := targetNoticeStep_uiLock env (targetConfigStage env s).1 hui hinv1
  unfold targetTick
  dsimp only
  by_cases hen : env.cfg.targetEnabled = false
  · rw [if_pos hen]
    obtain ⟨_, _, _, _, hsp5, _, _, hsp8⟩ :=
      targetStopProc_spec env (targetNoticeStep env (targetConfigStage env s).1).1
    refine ⟨?_, ?_, ?_⟩
    · exact (show (targetStopProc env
          (targetNoticeStep env (targetConfigStage env s).1).1).1.noticeLocked = false from by
        rw [hsp5]; exact hn1)
    · intro b hb
      simp only [targetLockSets_append, hc3, hsp8, List.append_nil,
        List.nil_append] at hb
      exact hn2 b hb
    · intro hv
      have hlow := hn3 (by rw [hc1]; exact hv)
      exact List.mem_append_left _ (List.mem_append_right _ hlow)
  · rw [if_neg hen]
    obtain ⟨_, _, _, _, _, hw6, _, _, hw9⟩ :=
      targetWatchdog_frame env (targetNoticeStep env (targetConfigStage env s).1).1
    obtain ⟨hs1, hs2, hs3⟩ := targetSched_noticeRO env
      (targetWatchdog env (targetNoticeStep env (targetConfigStage env s).1).1).1
    refine ⟨?_, ?_, ?_⟩
    · rw [hs2, hw6]
      exact hn1
    · intro b hb
      simp only [targetLockSets_append, hc3, hw9, hs3, List.append_nil,
        List.nil_append] at hb
      exact hn2 b hb
    · intro hv
      have hlow := hn3 (by rw [hc1]; exact hv)
      exact List.mem_append_left _
        (List.mem_append_left _ (List.mem_append_right _ hlow))

/-- C5: interaction-lock exclusivity.  Starting from a state satisfying the
hide-clears-lock invariant (Qt's `hideEvent` drops the lock with the window,
and both hold at startup), a run on which every tick reads
`uiActiveRefCount > 0` keeps the notice's interaction lock false after every
tick and never calls `set_interaction_lock(True)`; moreover any tick that
reads `uiActiveRefCount > 0` while the notice is visible drops it behind. -/
theorem interaction_lock_exclusivity (envs : List TargetEnv) (s : TargetSt)
    (hui : ∀ e ∈ envs, 0 < e.uiActiveCount)
    (hinv : s.noticeVisible = false → s.noticeLocked = false) :
    (∀ t ∈ targetStates envs s, t.noticeLocked = false)
    ∧ (∀ b ∈ targetLockSets (targetRun envs s).2, b = false)
    ∧ (∀ (e : TargetEnv) (t : TargetSt), 0 < e.uiActiveCount →
        t.noticeVisible = true → TargetEv.lowerNotice ∈ (targetTick e t).2) := by
  have main : ∀ (envs2 : List TargetEnv) (s2 : TargetSt),
      (∀ e ∈ envs2, 0 < e.uiActiveCount) →
      (s2.noticeVisible = false → s2.noticeLocked = false) →
      (∀ t ∈ targetStates envs2 s2, t.noticeLocked = false)
      ∧ (∀ b ∈ targetLockSets (targetRun envs2 s2).2, b = false) := by
    intro envs2
    induction envs2 with
    | nil =>
      intro s2 _ _
      exact ⟨fun t ht => absurd ht (List.not_mem_nil t),
             fun b hb => absurd hb (List.not_mem_nil b)⟩
    | cons e tail ih =>
      intro s2 hu hi
      obtain ⟨t1, t2, _⟩ := targetTick_uiLock e s2 (hu e (List.mem_cons_self e tail)) hi
      obtain ⟨ih1, ih2⟩ := ih (targetTick e s2).1
        (fun e2 he2 => hu e2 (List.mem_cons_of_mem e he2)) (fun _ => t1)
      refine ⟨?_, ?_⟩
      · intro t ht
        have ht2 : t ∈ (targetTick e s2).1 :: targetStates tail (targetTick e s2).1 := ht
        rcases List.mem_cons.mp ht2 with h | h
        · rw [h]
          exact t1
        · exact ih1 t h
      · intro b hb
        have hb2 : b ∈ targetLockSets
            ((targetTick e s2).2 ++ (targetRun tail (targetTick e s2).1).2) := hb
        rw [targetLockSets_append] at hb2
        rcases List.mem_append.mp hb2 with h | h
        · exact t2 b h
        · exact ih2 b h
  obtain ⟨m1, m2⟩ := main envs s hui hinv
  refine ⟨m1, m2, ?_⟩
  intro e t he hv
  exact (targetTick_uiLock e t he (fun hfalse => absurd (hfalse ▸ hv) (by decide))).2.2 hv

/-- C5 witness environment: an interactive UI window holds the ref-count at
3 while the notice is visible and locked. -/
def envC5 : TargetEnv := { envW8 with uiActiveCount := 3 }

/-- C5 witness state: a visible, interaction-locked notice. -/
def sC5 : TargetSt :=
  { targetInit cfgTW 0 with noticeVisible := true, noticeLocked := true }

/-- Witness for C5: on a two-tick run with `uiActiveRefCount = 3` from a
visible locked notice, every post-tick state is unlocked, no
`set_interaction_lock(True)` call is made, and a visible notice is dropped
behind on any such tick. -/
theorem interaction_lock_exclusivity_witness :
    (∀ t ∈ targetStates [envC5, envC5] sC5, t.noticeLocked = false)
    ∧ (∀ b ∈ targetLockSets (targetRun [envC5, envC5] sC5).2, b = false)
    ∧ (∀ (e : TargetEnv) (t : TargetSt), 0 < e.uiActiveCount →
        t.noticeVisible = true → TargetEv.lowerNotice ∈ (targetTick e t).2) :=
  interaction_lock_exclusivity [envC5, envC5] sC5
    (by intro e he; simp only [List.mem_cons, List.not_mem_nil, or_false] at he;
        rcases he with h | h <;> (rw [h]; decide))
    (fun h => by exact absurd h (by decide))

end AutoWake
